import Mathlib

/-!
Verification development for the demo HR chat application.

The definitions below are a shallow embedding of the TypeScript source:

* `parseSQLiteDate`, `executeSubquery` and `executeQuery` from the
  database helper module;
* the `POST` handler of the database-chat route together with its
  `PERSONAL_QUESTION_PATTERNS` / `OTHER_EMPLOYEE_PATTERNS` classifiers
  (final variant of the route file).

Modelling conventions:

* JavaScript `Date` values are modelled as proleptic-Gregorian calendar
  days (JS dates use the proleptic Gregorian calendar).  Time-of-day
  components are irrelevant to the embedded code except for one `<=`
  comparison, noted at `dateLe`.  The server is taken to run in the UTC
  timezone, so `new Date("YYYY-MM-DD")` (UTC midnight) and the
  local-time getters agree on the calendar day.
* JSON numbers are modelled as integers; none of the verified
  properties depend on fractional values.
* The "current date" (`new Date()`) is passed explicitly as a `today`
  parameter.
-/

namespace HRChat

/-- Proleptic-Gregorian leap-year test, as used by JS `Date`. -/
def isLeapYear (y : Int) : Bool :=
  y % 4 == 0 && (y % 100 != 0 || y % 400 == 0)

/-- Number of days of month `m` (1-12) in year `y`. -/
def daysInMonth (y m : Int) : Int :=
  if m == 2 then (if isLeapYear y then 29 else 28)
  else if m == 4 || m == 6 || m == 9 || m == 11 then 30
  else 31

/-- Days since 1970-01-01 of a civil (proleptic Gregorian) date;
Howard Hinnant's `days_from_civil` algorithm. -/
def daysFromCivil (y m d : Int) : Int :=
  let y2 := y - (if m <= 2 then 1 else 0)
  let era := (if y2 >= 0 then y2 else y2 - 399) / 400
  let yoe := y2 - era * 400
  let doy := (153 * (m + (if m > 2 then -3 else 9)) + 2) / 5 + d - 1
  let doe := yoe * 365 + yoe / 4 - yoe / 100 + doy
  era * 146097 + doe - 719468

/-- A calendar date, with a 1-based month (as printed; JS `getMonth()`
is this month minus one). -/
structure CalDate where
  year : Int
  month : Int
  day : Int
deriving DecidableEq, Repr

/-- Civil date of a day count since 1970-01-01; Howard Hinnant's
`civil_from_days` algorithm (inverse of `daysFromCivil`). -/
def civilFromDays (z0 : Int) : CalDate :=
  let z := z0 + 719468
  let era := (if z >= 0 then z else z - 146096) / 146097
  let doe := z - era * 146097
  let yoe := (doe - doe / 1460 + doe / 36524 - doe / 146096) / 365
  let y := yoe + era * 400
  let doy := doe - (365 * yoe + yoe / 4 - yoe / 100)
  let mp := (5 * doy + 2) / 153
  let d := doy - (153 * mp + 2) / 5 + 1
  let m := mp + (if mp < 10 then 3 else -9)
  ⟨y + (if m <= 2 then 1 else 0), m, d⟩

/-- `new Date(year, monthIndex, day)`: JS normalizes out-of-range month
indices and days by rolling over (e.g. `new Date(2026, 1, 30)` is
2026-03-02).  For any integer arguments the result is a valid date, so
the source's `!isNaN(tentativeDate.getTime())` guard is always true. -/
def jsMkDate (y m0 d : Int) : CalDate :=
  let months := y * 12 + m0
  let yy := months.fdiv 12
  let mm := months.emod 12 + 1
  civilFromDays (daysFromCivil yy mm 1 + (d - 1))

/-- `date.setMonth(m)`: keeps the day-of-month and rolls over. -/
def jsSetMonth (dt : CalDate) (m0 : Int) : CalDate :=
  jsMkDate dt.year m0 dt.day

/-- `date.setDate(d)`: keeps year/month and rolls over. -/
def jsSetDate (dt : CalDate) (d : Int) : CalDate :=
  jsMkDate dt.year (dt.month - 1) d

/-- Comparison `a <= b` of two JS `Date`s where `a` sits at local
midnight (it came from the `Date(y,m,d)` constructor) and `b` carries
the current time of day: on equal calendar days midnight is `<=` any
time of day, so the timestamp comparison is day-level `<=`. -/
def dateLe (a b : CalDate) : Bool :=
  daysFromCivil a.year a.month a.day <= daysFromCivil b.year b.month b.day

/-- Is `y-m-d` a real calendar date? -/
def isValidDate (y m d : Int) : Bool :=
  1 <= m && m <= 12 && 1 <= d && d <= daysInMonth y m

def isValidCalDate (dt : CalDate) : Bool :=
  isValidDate dt.year dt.month dt.day

/-! ## Characters and strings -/

/-- Value of a decimal digit character. -/
def digitVal? (c : Char) : Option Nat :=
  if '0' ≤ c && c ≤ '9' then some (c.toNat - '0'.toNat) else none

def isDigitCh (c : Char) : Bool := (digitVal? c).isSome

/-- The decimal digit character of `n` (for `n < 10`). -/
def decDigit (n : Nat) : Char :=
  if n < 10 then Char.ofNat ('0'.toNat + n) else '?'

/-- Decimal digit list of a natural number (JS `String(n)` for `n >= 0`),
with a structural fuel argument (`fuel >= n` always holds on the calls
made). -/
def natDecCharsGo : Nat → Nat → List Char
  | 0, n => [decDigit n]
  | fuel + 1, n =>
      if n < 10 then [decDigit n]
      else natDecCharsGo fuel (n / 10) ++ [decDigit (n % 10)]

def natDecChars (n : Nat) : List Char := natDecCharsGo n n

/-- JS `String(n)` for an integer-valued number. -/
def intToDec (n : Int) : String :=
  if n < 0 then "-" ++ String.mk (natDecChars (-n).toNat)
  else String.mk (natDecChars n.toNat)

/-- JS `String(n).padStart(2, '0')`. -/
def pad2 (n : Int) : String :=
  let s := intToDec n
  if s.length < 2 then "0" ++ s else s

/-- The `${getFullYear()}-${pad2 (getMonth()+1)}-${pad2 getDate()}`
formatting used throughout `parseSQLiteDate`. -/
def fmtDate (dt : CalDate) : String :=
  intToDec dt.year ++ "-" ++ pad2 dt.month ++ "-" ++ pad2 dt.day

/-- JS `toUpperCase`, restricted to ASCII: every string the embedded
code upper/lower-cases consists of ASCII and Thai characters, and Thai
has no letter case. -/
def jsUpChar (c : Char) : Char :=
  if 'a' <= c && c <= 'z' then Char.ofNat (c.toNat - 32) else c

def jsLowChar (c : Char) : Char :=
  if 'A' <= c && c <= 'Z' then Char.ofNat (c.toNat + 32) else c

def jsToUpper (s : String) : String := String.mk (s.toList.map jsUpChar)

def jsToLower (s : String) : String := String.mk (s.toList.map jsLowChar)

/-- The characters matched by the regex class `\s` (ASCII part). -/
def jsIsWs (c : Char) : Bool :=
  c = ' ' || c = '\t' || c = '\n' || c = '\r' || c = '\x0b' || c = '\x0c'

/-- JS `String.prototype.trim`. -/
def jsTrimChars (cs : List Char) : List Char :=
  ((cs.dropWhile jsIsWs).reverse.dropWhile jsIsWs).reverse

def jsTrim (s : String) : String := String.mk (jsTrimChars s.toList)

/-- The regex word-character class `\w = [A-Za-z0-9_]` (no `u` flag on
any of the embedded regexes, so `\w`/`\b` are ASCII-only; in particular
Thai characters are not word characters). -/
def jsWordChar (c : Char) : Bool :=
  ('A' <= c && c <= 'Z') || ('a' <= c && c <= 'z') || ('0' <= c && c <= '9') || c = '_'

/-- Consume the literal `w` (case-sensitively) from the head of `cs`. -/
def eatLit : List Char → List Char → Option (List Char)
  | [], cs => some cs
  | _ :: _, [] => none
  | a :: w, c :: cs => if a = c then eatLit w cs else none

/-- Consume the literal `w` case-insensitively (ASCII folding, the
behaviour of the `i` regex flag on the embedded patterns) from the head
of `cs`, returning the last consumed character and the remainder. -/
def eatLitCI : List Char → Option Char → List Char → Option (Option Char × List Char)
  | [], prev, cs => some (prev, cs)
  | _ :: _, _, [] => none
  | a :: w, _, c :: cs =>
      if jsLowChar a = jsLowChar c then eatLitCI w (some c) cs else none

/-- Leading run of decimal digits and the remainder (regex `\d+`,
greedy). -/
def takeDigits (cs : List Char) : List Char × List Char :=
  (cs.takeWhile isDigitCh, cs.dropWhile isDigitCh)

/-- `parseInt(s, 10)` of an all-digit string. -/
def digitsToNat (cs : List Char) : Nat :=
  cs.foldl (fun acc c => acc * 10 + ((digitVal? c).getD 0)) 0

/-- `s.toLowerCase().startsWith(w)`. -/
def lowStartsWith (w : String) (s : String) : Bool :=
  (eatLit w.toList (s.toList.map jsLowChar)).isSome

/-! ## A small matcher for the route's regex classifiers

Each pattern of `PERSONAL_QUESTION_PATTERNS` / `OTHER_EMPLOYEE_PATTERNS`
is a disjunction of simple sequences built from literals, `\b`, `.*?`
and `\d+`; a pattern with an inner group alternation is expanded into
one sequence per group alternative.  Only `RegExp.test` is applied to
these patterns, so greedy/lazy repetition makes no difference (it only
affects captures) and `.*?` is modelled as plain unbounded repetition
of non-newline characters. -/

/-- One token of an embedded regex. -/
inductive RTok where
  /-- a literal (matched with ASCII case folding, for the `i` flag) -/
  | lit (w : List Char)
  /-- the word-boundary assertion `\b` -/
  | bnd
  /-- `.*?`: any number of non-newline characters -/
  | anyLazy
  /-- `\d+`: one or more decimal digits -/
  | digits
deriving Repr

/-- `\b` holds between `prev` and `next` iff exactly one side is a word
character (string edges count as non-word). -/
def boundaryOk (prev next : Option Char) : Bool :=
  (prev.elim false jsWordChar) != (next.elim false jsWordChar)

/-- The characters matched by `.` (no `s` flag): everything except line
terminators. -/
def jsNotNewline (c : Char) : Bool :=
  !(c = '\n' || c = '\r' || c = '\u2028' || c = '\u2029')

/-- All ways for `.*?` to consume a prefix of non-newline characters:
each element is (last consumed char, remainder). -/
def anyLazySplits (prev : Option Char) (cs : List Char) : List (Option Char × List Char) :=
  (prev, cs) ::
    match cs with
    | [] => []
    | c :: rest => if jsNotNewline c then anyLazySplits (some c) rest else []

/-- All ways for `\d+` to consume a non-empty prefix of digits. -/
def digitSplits (_prev : Option Char) (cs : List Char) : List (Option Char × List Char) :=
  match cs with
  | [] => []
  | c :: rest =>
      if isDigitCh c then (some c, rest) :: digitSplits (some c) rest
      else []

/-- Does the token sequence match a prefix of `cs` (with `prev` the
character just before `cs`, for `\b`)? -/
def matchToks : List RTok → Option Char → List Char → Bool
  | [], _, _ => true
  | .lit w :: ts, prev, cs =>
      (eatLitCI w prev cs).elim false (fun pc => matchToks ts pc.1 pc.2)
  | .bnd :: ts, prev, cs => boundaryOk prev cs.head? && matchToks ts prev cs
  | .anyLazy :: ts, prev, cs =>
      (anyLazySplits prev cs).any (fun pc => matchToks ts pc.1 pc.2)
  | .digits :: ts, prev, cs =>
      (digitSplits prev cs).any (fun pc => matchToks ts pc.1 pc.2)

/-- All suffixes of `cs` with the character preceding each. -/
def startPoints (prev : Option Char) (cs : List Char) : List (Option Char × List Char) :=
  (prev, cs) :: match cs with | [] => [] | c :: rest => startPoints (some c) rest

/-- `RegExp.test`: does some alternative match at some position? -/
def toksTest (alts : List (List RTok)) (s : String) : Bool :=
  (startPoints none s.toList).any (fun pc => alts.any (fun ts => matchToks ts pc.1 pc.2))

def thLit (s : String) : RTok := .lit s.toList

/-! ## Date Normalizer (`parseSQLiteDate`) -/

/-- `dateInputStr.replace(/^\(SELECT\s+|\s*\)$/gi, '')`: removes a
leading `(SELECT` followed by at least one whitespace character
(whitespace run consumed greedily) and a trailing whitespace run ending
in `)`. -/
def stripTrailingParen (cs : List Char) : List Char :=
  if cs.reverse.head? = some ')' then
    ((cs.reverse.drop 1).dropWhile jsIsWs).reverse
  else cs

def stripSelectArtifacts (cs : List Char) : List Char :=
  stripTrailingParen
    (match eatLitCI "(SELECT".toList none cs with
     | some (_, rest) =>
         if rest.head?.elim false jsIsWs then rest.dropWhile jsIsWs else cs
     | none => cs)

/-- `const normalizedInput = cleanedDateInput.toUpperCase()` where
`cleanedDateInput` is the stripped and trimmed raw input. -/
def normalizeDateInput (s : String) : List Char :=
  (jsTrimChars (stripSelectArtifacts s.toList)).map jsUpChar

/-- The regex `/^\d{4}-\d{2}-\d{2}$/`. -/
def canonChars (cs : List Char) : Bool :=
  match cs with
  | [y1, y2, y3, y4, h1, m1, m2, h2, d1, d2] =>
      isDigitCh y1 && isDigitCh y2 && isDigitCh y3 && isDigitCh y4 &&
      h1 = '-' && isDigitCh m1 && isDigitCh m2 && h2 = '-' &&
      isDigitCh d1 && isDigitCh d2
  | _ => false

/-- `normalizedInput.split('-')` on a `YYYY-MM-DD` string: the year,
month and day digit groups. -/
def canonParts (cs : List Char) : List Char × List Char × List Char :=
  match cs with
  | [y1, y2, y3, y4, _, m1, m2, _, d1, d2] => ([y1, y2, y3, y4], [m1, m2], [d1, d2])
  | _ => ([], [], [])

/-- `new Date("YYYY-MM-DD")` followed by the local-time getters (UTC
timezone): the parsed components when they form a real calendar date,
`none` (Invalid Date) otherwise. -/
def isoParseValid (cs : List Char) : Option CalDate :=
  if canonChars cs then
    if isValidDate (digitsToNat (canonParts cs).1) (digitsToNat (canonParts cs).2.1)
        (digitsToNat (canonParts cs).2.2) then
      some ⟨digitsToNat (canonParts cs).1, digitsToNat (canonParts cs).2.1,
            digitsToNat (canonParts cs).2.2⟩
    else none
  else none

/-- The year-rewrite condition of the `YYYY-MM-DD` branch:
`year !== currentYear` and `tentativeDate <= sixMonthsFromNow`, where
`tentativeDate = new Date(currentYear, month - 1, day)` (never NaN, see
`jsMkDate`) and `sixMonthsFromNow = new Date()` after
`setMonth(currentMonth + 6)` with `currentMonth = getMonth() + 1` —
i.e. seven 0-based months ahead of today. -/
def yearRewriteHit (today : CalDate) (cs : List Char) : Bool :=
  (digitsToNat (canonParts cs).1 : Int) != today.year &&
  dateLe (jsMkDate today.year ((digitsToNat (canonParts cs).2.1 : Int) - 1)
            (digitsToNat (canonParts cs).2.2))
    (jsSetMonth today (today.month + 6))

/-- The `/^\d{4}-\d{2}-\d{2}$/` branch of `parseSQLiteDate` once the
format regex has matched.  On a year rewrite it returns
`${currentYear}-${monthStr.padStart(2,'0')}-${dayStr.padStart(2,'0')}`
(the month/day strings are already two digits, so `padStart` is the
identity); otherwise it reformats `new Date(normalizedInput)` when that
is a valid date, and returns `none` when the source falls through to
the relative-date handling. -/
def canonRewriteOrIso (today : CalDate) (cs : List Char) : Option String :=
  if yearRewriteHit today cs then
    some (intToDec today.year ++ "-" ++ String.mk (canonParts cs).2.1 ++ "-"
          ++ String.mk (canonParts cs).2.2)
  else
    match isoParseValid cs with
    | some dt => some (fmtDate dt)
    | none => none

/-- The `/^\d{4}-\d{2}-\d{2}$/` branch of `parseSQLiteDate`.  Returns
`none` when the source falls through to the relative-date handling
(which happens when the regex does not match, and also when no year
rewrite applies and `new Date(normalizedInput)` is invalid). -/
def canonBranch (today : CalDate) (cs : List Char) : Option String :=
  if canonChars cs then canonRewriteOrIso today cs else none

/-- `/^CURRENT_DATE\s*([+-])\s*INTERVAL\s*'(\d+)\s+(DAY|DAYS)'$/` on the
(already upper-cased) normalized input; the regex has no `i` flag but
the input is upper case, so matching is case-sensitive as in the
source.  Returns (sign is `+`, parsed day count). -/
def matchCurrentDateIntervalChars (cs : List Char) : Option (Bool × Nat) :=
  match eatLit "CURRENT_DATE".toList cs with
  | none => none
  | some r1 =>
    match r1.dropWhile jsIsWs with
    | sign :: r3 =>
      if sign = '+' || sign = '-' then
        match eatLit "INTERVAL".toList (r3.dropWhile jsIsWs) with
        | none => none
        | some r5 =>
          match r5.dropWhile jsIsWs with
          | '\x27' :: r7 =>
            let (ds, r8) := takeDigits r7
            if ds = [] then none
            else
              match r8 with
              | c :: r9 =>
                if jsIsWs c then
                  -- `(DAY|DAYS)` then `'` then end of string
                  match eatLit "DAY".toList (r9.dropWhile jsIsWs) with
                  | none => none
                  | some r11 =>
                    if r11 = ['\x27'] then some (sign = '+', digitsToNat ds)
                    else match r11 with
                      | 'S' :: r12 =>
                          if r12 = ['\x27'] then some (sign = '+', digitsToNat ds) else none
                      | _ => none
                else none
              | [] => none
          | _ => none
      else none
    | [] => none

/-- Try `/date\('now',\s*'([+-]?\d+\s*(?:day|days|month|months))'\)/` at
the head of `cs` (which is already lower case).  Returns the signed
count and whether the unit is a month unit. -/
def tryNowModifierAt (cs : List Char) : Option (Int × Bool) :=
  match eatLit "date(\x27now\x27,".toList cs with
  | none => none
  | some r1 =>
    match r1.dropWhile jsIsWs with
    | '\x27' :: r3 =>
      let sr : Int × List Char :=
        match r3 with
        | '+' :: t => (1, t)
        | '-' :: t => (-1, t)
        | _ => (1, r3)
      let (ds, r5) := takeDigits sr.2
      if ds = [] then none
      else
        let r6 := r5.dropWhile jsIsWs
        -- `(?:day|days|month|months)` followed by `'` `)`; the regex
        -- alternation backtracks until the follow set matches
        let tail : Option Bool :=
          match eatLit "days\x27)".toList r6 with
          | some _ => some false
          | none =>
            match eatLit "day\x27)".toList r6 with
            | some _ => some false
            | none =>
              match eatLit "months\x27)".toList r6 with
              | some _ => some true
              | none =>
                match eatLit "month\x27)".toList r6 with
                | some _ => some true
                | none => none
        match tail with
        | some isMonth => some (sr.1 * (digitsToNat ds : Int), isMonth)
        | none => none
    | _ => none

/-- Unanchored search for the `date('now', ...)` modifier pattern
(leftmost match). -/
def searchNowModifier : List Char → Option (Int × Bool)
  | [] => none
  | c :: rest =>
      match tryNowModifierAt (c :: rest) with
      | some r => some r
      | none => searchNowModifier rest

/-- The relative-date handling of `parseSQLiteDate` (everything after
the `YYYY-MM-DD` branch): `CURRENT_DATE`, `CURRENT_DATE ± INTERVAL 'N
DAY(S)'`, `date('now')`, `date('now','localtime')`,
`date('now','±N day(s)/month(s)')`, and the warn-and-fall-back-to-today
default. -/
def relativeLower (today : CalDate) (lower : List Char) : String :=
  if lower = "date(\x27now\x27)".toList ∨ lower = "date(\x27now\x27, \x27localtime\x27)".toList then
    fmtDate today
  else
    match searchNowModifier lower with
    | some (num, isMonth) =>
        if isMonth then fmtDate (jsSetMonth today (today.month - 1 + num))
        else fmtDate (jsSetDate today (today.day + num))
    | none =>
        -- console.warn(`Unparseable date string ...`); keep the
        -- current date
        fmtDate today

def relativeBranch (today : CalDate) (cs : List Char) : String :=
  if cs = "CURRENT_DATE".toList then fmtDate today
  else
    match matchCurrentDateIntervalChars cs with
    | some (plus, n) =>
        if plus then fmtDate (jsSetDate today (today.day + n))
        else fmtDate (jsSetDate today (today.day - n))
    | none => relativeLower today (cs.map jsLowChar)

/-- `parseSQLiteDate` from the database helper, with the current date
passed explicitly. -/
def parseSQLiteDate (today : CalDate) (dateInputStr : String) : String :=
  let normalizedInput := normalizeDateInput dateInputStr
  match canonBranch today normalizedInput with
  | some out => out
  | none => relativeBranch today normalizedInput

/-! ## Splitting on `\s+AND\s+` / `\s+as\s+` -/

/-- Match the separator `\s+WORD\s+` (case-insensitively) at the head
of `cs` and return the remainder after the greedily-consumed trailing
whitespace run. -/
def trySepWordCI (w : List Char) (cs : List Char) : Option (List Char) :=
  match cs with
  | c :: rest =>
    if jsIsWs c then
      match eatLitCI w none (rest.dropWhile jsIsWs) with
      | some (_, r2) =>
        match r2 with
        | d :: r3 => if jsIsWs d then some (r3.dropWhile jsIsWs) else none
        | [] => none
      | none => none
    else none
  | [] => none

/-- Worker for `String.prototype.split` with a `\s+WORD\s+` separator
regex; the fuel is an upper bound on the number of steps (each step
consumes at least one character, so `length + 1` is always enough). -/
def splitWordGo (w : List Char) : Nat → List Char → List Char → List (List Char)
  | 0, acc, _ => [acc.reverse]
  | _ + 1, acc, [] => [acc.reverse]
  | fuel + 1, acc, c :: rest =>
    match trySepWordCI w (c :: rest) with
    | some r => acc.reverse :: splitWordGo w fuel [] r
    | none => splitWordGo w fuel (c :: acc) rest

/-- `s.split(/\s+AND\s+/i)` (and, with another word, `/\s+as\s+/i`). -/
def jsSplitWsWordWs (w : String) (s : String) : List String :=
  (splitWordGo w.toList (s.toList.length + 1) [] s.toList).map String.mk

/-- `value.split(/\s+AND\s+/i).map(v => v.trim())`, the BETWEEN range
splitter. -/
def splitBetweenParts (s : String) : List String :=
  (jsSplitWsWordWs "AND" s).map jsTrim

/-! ## Name Subquery Resolver (`executeSubquery`) -/

/-- Lazy capture `(.+?)` followed by `%'`: the shortest non-empty run
of non-newline characters whose immediate successor is `%'`. -/
def lazyCapGo (accRev : List Char) (rest : List Char) : Option (List Char) :=
  match rest with
  | '%' :: '\x27' :: _ => some accRev.reverse
  | c :: cs => if jsNotNewline c then lazyCapGo (c :: accRev) cs else none
  | [] => none

/-- Try `/FIELD\s+LIKE\s+'%(.+?)%'/i` at the head of `cs`, returning
the capture. -/
def tryNameLikeAt (field : List Char) (cs : List Char) : Option (List Char) :=
  match eatLitCI field none cs with
  | none => none
  | some (_, r1) =>
    match r1 with
    | c :: r2 =>
      if jsIsWs c then
        match eatLitCI "LIKE".toList none (r2.dropWhile jsIsWs) with
        | none => none
        | some (_, r4) =>
          match r4 with
          | d :: r5 =>
            if jsIsWs d then
              match r5.dropWhile jsIsWs with
              | '\x27' :: '%' :: r7 =>
                (match r7 with
                 | e :: r8 => if jsNotNewline e then lazyCapGo [e] r8 else none
                 | [] => none)
              | _ => none
            else none
          | [] => none
      else none
    | [] => none

/-- Leftmost match of `/FIELD\s+LIKE\s+'%(.+?)%'/i`. -/
def searchNameLike (field : List Char) : List Char → Option (List Char)
  | [] => none
  | c :: rest =>
      match tryNameLikeAt field (c :: rest) with
      | some cap => some cap
      | none => searchNameLike field rest

/-- Try `/emp_id\s*=\s*(\d+)/i` at the head of `cs`. -/
def tryEmpIdEqAt (cs : List Char) : Option Nat :=
  match eatLitCI "emp_id".toList none cs with
  | none => none
  | some (_, r1) =>
    match r1.dropWhile jsIsWs with
    | '=' :: r3 =>
      let (ds, _) := takeDigits (r3.dropWhile jsIsWs)
      if ds = [] then none else some (digitsToNat ds)
    | _ => none

/-- Leftmost match of `/emp_id\s*=\s*(\d+)/i`. -/
def searchEmpIdEq : List Char → Option Nat
  | [] => none
  | c :: rest =>
      match tryEmpIdEqAt (c :: rest) with
      | some n => some n
      | none => searchEmpIdEq rest

/-- A filter applied by `executeSubquery` to the `employees` lookup. -/
inductive SubFilter where
  /-- `.ilike('first_name', `%cap%`)` -/
  | ilikeFirstName (pat : String)
  /-- `.ilike('last_name', `%cap%`)` -/
  | ilikeLastName (pat : String)
  /-- `.eq('emp_id', parseInt(cap, 10))` -/
  | eqEmpId (n : Nat)
deriving DecidableEq, Repr

/-- The name-LIKE filters of `executeSubquery`: the `first_name` and
`last_name` `LIKE` clauses found in the subquery text (in that order,
as the source applies them).  `conditionsFound` in the source is true
iff this list is non-empty. -/
def subqueryBaseFilters (subquery : String) : List SubFilter :=
  (match searchNameLike "first_name".toList subquery.toList with
   | some cap => [SubFilter.ilikeFirstName ("%" ++ String.mk cap ++ "%")]
   | none => []) ++
  (match searchNameLike "last_name".toList subquery.toList with
   | some cap => [SubFilter.ilikeLastName ("%" ++ String.mk cap ++ "%")]
   | none => [])

/-- The parsing/filter-building part of `executeSubquery`: the grammar
check, the `first_name`/`last_name` `LIKE` extraction and the `emp_id`
fallback, with the two unsupported-subquery errors. -/
def parseSubquery (subquery : String) : Except String (List SubFilter) :=
  if !lowStartsWith "select emp_id from employees where" subquery then
    .error ("Unsupported subquery structure: " ++ subquery)
  else
    match subqueryBaseFilters subquery with
    | b :: bs => .ok (b :: bs)
    | [] =>
      match searchEmpIdEq subquery.toList with
      | some n => .ok [SubFilter.eqEmpId n]
      | none => .error ("Unsupported subquery conditions: " ++ subquery)

/-! ## JSON values and the Intermediate Query model -/

/-- A scalar JSON-ish runtime value.  Numbers are modelled as integers
(see the module header); `undef` is JS `undefined` (an absent field)
and `nan` the `NaN` number (reachable only through failed `parseInt` /
`parseFloat` conversions). -/
inductive JPrim where
  | str (s : String)
  | num (n : Int)
  | bool (b : Bool)
  | null
  | undef
  | nan
deriving DecidableEq, Repr

/-- A JSON-ish runtime value: a scalar or an array.  Arrays hold
scalars — the embedded code only ever builds flat arrays (`IN` operand
lists and id lists). -/
inductive JVal where
  | str (s : String)
  | num (n : Int)
  | bool (b : Bool)
  | null
  | undef
  | nan
  | arr (xs : List JPrim)
deriving DecidableEq, Repr

def JPrim.toJVal : JPrim → JVal
  | .str s => .str s
  | .num n => .num n
  | .bool b => .bool b
  | .null => .null
  | .undef => .undef
  | .nan => .nan

/-- Rendering of a scalar inside `Array.prototype.join` (`null` and
`undefined` elements render as the empty string there). -/
def jprimToStr : JPrim → String
  | .str s => s
  | .num n => intToDec n
  | .bool b => if b then "true" else "false"
  | .null => ""
  | .undef => ""
  | .nan => "NaN"

/-- A result row: a JS object, modelled as an association list. -/
abbrev Row := List (String × JVal)

/-- JS object update `o[k] = v` (also `{...o, k: v}`): replaces the
value in place if the key exists, appends otherwise. -/
def setAssoc {α : Type} : List (String × α) → String → α → List (String × α)
  | [], k, v => [(k, v)]
  | (k', v') :: rest, k, v =>
      if k' = k then (k, v) :: rest else (k', v') :: setAssoc rest k v

/-- JS property access `row.k`: `undefined` when the key is absent. -/
def getField (row : Row) (k : String) : JVal :=
  match row.find? (fun p => p.1 = k) with
  | some p => p.2
  | none => (.undef)

/-- `Object.prototype.hasOwnProperty`. -/
def hasField (row : Row) (k : String) : Bool :=
  (row.find? (fun p => p.1 = k)).isSome

/-- JS truthiness. -/
def jvalTruthy : JVal → Bool
  | .str s => s ≠ ""
  | .num n => n ≠ 0
  | .bool b => b
  | .null => false
  | .undef => false
  | .nan => false
  | .arr _ => true

/-- JS `String(v)`; array elements are joined with `,` (and `null` /
`undefined` elements render as the empty string inside a join, which is
what `jprimToStr` implements). -/
def jvalToStr : JVal → String
  | .str s => s
  | .num n => intToDec n
  | .bool b => if b then "true" else "false"
  | .null => "null"
  | .undef => "undefined"
  | .nan => "NaN"
  | .arr xs => String.intercalate "," (xs.map jprimToStr)

/-- `parseFloat(String(v))`: the identity on numbers; digit-prefix
parsing on strings (the fractional part is outside the integer value
model and none of the verified properties reach it); `NaN` otherwise. -/
def parseFloatStr : JVal → JVal
  | .num n => .num n
  | .nan => .nan
  | .str s =>
      let cs := s.toList
      let sr : Int × List Char :=
        match cs with
        | '-' :: t => (-1, t)
        | '+' :: t => (1, t)
        | _ => (1, cs)
      let (ds, _) := takeDigits sr.2
      if ds = [] then .nan else .num (sr.1 * (digitsToNat ds : Int))
  | _ => .nan

/-- `parseInt(s, 10)`: leading whitespace, optional sign, digit run;
`NaN` when no digits follow. -/
def parseIntJS (s : String) : JVal :=
  let cs := s.toList.dropWhile jsIsWs
  let sr : Int × List Char :=
    match cs with
    | '-' :: t => (-1, t)
    | '+' :: t => (1, t)
    | _ => (1, cs)
  let (ds, _) := takeDigits sr.2
  if ds = [] then .nan else .num (sr.1 * (digitsToNat ds : Int))

/-- One entry of `DatabaseQuery.conditions` (a `Record<string,
unknown>`): either an `{operator, value}` descriptor or a bare value
(the source's fallback-to-equality case). -/
inductive CondEntry where
  | withOp (operator : String) (value : JVal)
  | plain (v : JVal)
deriving DecidableEq, Repr

/-- One `orderBy` element.  The direction is kept as a raw string; the
source compares it with `=== 'asc'` / `.toLowerCase() === 'desc'`. -/
structure OrderBy where
  column : String
  direction : String
deriving DecidableEq, Repr

/-- The `DatabaseQuery` interface of the database helper.  `type` is
kept as a raw string (the source compares it with `=== 'AGGREGATE'`),
and `conditions` is an association list in object-key order. -/
structure DatabaseQuery where
  type : String
  table : String
  columns : Option (List String) := none
  conditions : Option (List (String × CondEntry)) := none
  conditionLogic : Option String := none
  joins : Option (List String) := none
  groupBy : Option (List String) := none
  orderBy : Option (List OrderBy) := none
  limit : Option Int := none
deriving DecidableEq, Repr

/-- JS truthiness of `query.limit` (`if (query.limit)`), on which the
source gates both RPC checks and the final `.limit(...)` call. -/
def limitTruthy : Option Int → Bool
  | some n => n ≠ 0
  | none => false

/-! ## Compiled filters -/

/-- One `key.op.value` atom of a PostgREST `.or(...)` disjunctive
filter string.  The source composes these textually
(`` `${key}.eq.${JSON.stringify(value)}` ``); the composition is
modelled structurally, one constructor per textual shape. -/
inductive OrAtom where
  | eq (k : String) (v : JVal)
  | neq (k : String) (v : JVal)
  | isNull (k : String)
  | notIsNull (k : String)
  | inList (k : String) (vs : List JVal)
  | ilike (k : String) (pat : String)
  | gt (k : String) (v : JVal)
  | gte (k : String) (v : JVal)
  | lt (k : String) (v : JVal)
  | lte (k : String) (v : JVal)
deriving DecidableEq, Repr

/-- One PostgREST filter-builder call chained onto a query. -/
inductive FilterOp where
  | eq (k : String) (v : JVal)
  | neq (k : String) (v : JVal)
  | isNull (k : String)
  | notIsNull (k : String)
  | inList (k : String) (vs : List JVal)
  | ilike (k : String) (pat : String)
  | gt (k : String) (v : JVal)
  | gte (k : String) (v : JVal)
  | lt (k : String) (v : JVal)
  | lte (k : String) (v : JVal)
  | orFilter (atoms : List OrAtom)
deriving DecidableEq, Repr

/-- A fully built generic (non-RPC) PostgREST query. -/
structure GenericQuery where
  table : String
  select : String
  filters : List FilterOp
  order : List (String × Bool)
  limit : Option Int := none
deriving DecidableEq, Repr

/-- The `switch (operator.toUpperCase())` condition compiler shared by
the aggregate fallback path and the AND-logic select path: the filter
calls one condition entry contributes.  A malformed BETWEEN range is an
error (the source throws); a BETWEEN with a non-string value logs a
warning and contributes nothing; an unrecognized operator logs a
warning and degrades to equality. -/
def condToFilterOps (today : CalDate) (k : String) (c : CondEntry) :
    Except String (List FilterOp) :=
  match c with
  | .withOp op v =>
    let u := jsToUpper op
    if u = "=" then
      match v with
      | .null => .ok [.isNull k]
      | .undef => .ok []
      | _ => .ok [.eq k v]
    else if u = "IN" then
      .ok [.inList k (match v with | .arr xs => xs.map JPrim.toJVal | _ => [v])]
    else if u = "LIKE" then
      .ok [.ilike k ("%" ++ jvalToStr v ++ "%")]
    else if u = "BETWEEN" then
      match v with
      | .str s =>
        match splitBetweenParts s with
        | [a, b] =>
            .ok [.gte k (.str (parseSQLiteDate today a)),
                 .lte k (.str (parseSQLiteDate today b))]
        | _ => .error ("Invalid BETWEEN format: " ++ s)
      | _ => .ok []
    else if u = ">" then .ok [.gt k v]
    else if u = ">=" then .ok [.gte k v]
    else if u = "<" then .ok [.lt k v]
    else if u = "<=" then .ok [.lte k v]
    else if u = "!=" || u = "<>" then
      match v with
      | .null => .ok [.notIsNull k]
      | _ => .ok [.neq k v]
    else
      match v with
      | .undef => .ok []
      | _ => .ok [.eq k v]
  | .plain v =>
    match v with
    | .undef => .ok []
    | _ => .ok [.eq k v]

/-- The OR-logic variant: the `.or(...)` filter-string fragments one
condition entry contributes.  A BETWEEN range pushes its two endpoint
bounds as two separate fragments. -/
def condToOrAtoms (today : CalDate) (k : String) (c : CondEntry) :
    Except String (List OrAtom) :=
  match c with
  | .withOp op v =>
    let u := jsToUpper op
    if u = "=" then
      match v with
      | .null => .ok [.isNull k]
      | .undef => .ok []
      | _ => .ok [.eq k v]
    else if u = "IN" then
      .ok [.inList k (match v with | .arr xs => xs.map JPrim.toJVal | _ => [v])]
    else if u = "LIKE" then
      .ok [.ilike k ("%" ++ jvalToStr v ++ "%")]
    else if u = "BETWEEN" then
      match v with
      | .str s =>
        match splitBetweenParts s with
        | [a, b] =>
            .ok [.gte k (.str (parseSQLiteDate today a)),
                 .lte k (.str (parseSQLiteDate today b))]
        | _ => .error ("Invalid BETWEEN format: " ++ s)
      | _ => .ok []
    else if u = ">" then .ok [.gt k v]
    else if u = ">=" then .ok [.gte k v]
    else if u = "<" then .ok [.lt k v]
    else if u = "<=" then .ok [.lte k v]
    else if u = "!=" || u = "<>" then
      match v with
      | .null => .ok [.notIsNull k]
      | _ => .ok [.neq k v]
    else
      match v with
      | .undef => .ok []
      | _ => .ok [.eq k v]
  | .plain v =>
    match v with
    | .undef => .ok []
    | _ => .ok [.eq k v]

/-- Fold `condToFilterOps` over the conditions in object-key order. -/
def buildFilterOpsAND (today : CalDate) :
    List (String × CondEntry) → Except String (List FilterOp)
  | [] => .ok []
  | (k, c) :: rest =>
    match condToFilterOps today k c with
    | .error e => .error e
    | .ok ops =>
      match buildFilterOpsAND today rest with
      | .error e => .error e
      | .ok rest' => .ok (ops ++ rest')

/-- Fold `condToOrAtoms` over the conditions in object-key order. -/
def buildOrAtoms (today : CalDate) :
    List (String × CondEntry) → Except String (List OrAtom)
  | [] => .ok []
  | (k, c) :: rest =>
    match condToOrAtoms today k c with
    | .error e => .error e
    | .ok atoms =>
      match buildOrAtoms today rest with
      | .error e => .error e
      | .ok rest' => .ok (atoms ++ rest')

/-! ## Backend interface and `executeQuery` -/

/-- One backend (Supabase) request issued by the embedded code, for
tracing which calls a run performs. -/
inductive BReq where
  /-- `supabase.rpc(name)` with no arguments -/
  | rpcCall (name : String)
  /-- `supabase.rpc('get_employee_work_hours', {employee_id, start_date_param, end_date_param})` -/
  | rpcWorkHours (empId : Int) (startDate endDate : String)
  /-- the `executeSubquery` lookup `supabase.from('employees').select('emp_id')` plus filters -/
  | subLookup (filters : List SubFilter)
  /-- an awaited generic filter-builder query -/
  | generic (g : GenericQuery)
deriving DecidableEq, Repr

/-- Responses of the relational backend.  A Supabase `{data, error}`
pair is modelled as `Except` (`error` truthy makes the source throw)
with a possibly-`null` data payload.  The `subLookup` response carries
the `emp_id` of each returned row. -/
structure Backend where
  onRpc : String → Except String (Option (List Row))
  onRpcWorkHours : Int → String → String → Except String (Option (List Row))
  onSub : List SubFilter → Except String (Option (List Int))
  onGeneric : GenericQuery → Except String (Option (List Row))

/-- `executeSubquery`: parse the constrained grammar, run the
employees lookup, and return the matched ids
(`data ? data.map(item => item.emp_id) : []` — never null). -/
def executeSubquery (B : Backend) (subquery : String) :
    Except String (List Int) × List BReq :=
  match parseSubquery subquery with
  | .error e => (.error e, [])
  | .ok fs =>
    match B.onSub fs with
    | .error e => (.error e, [.subLookup fs])
    | .ok none => (.ok [], [.subLookup fs])
    | .ok (some ids) => (.ok ids, [.subLookup fs])

def strStartsWith (s w : String) : Bool := (eatLit w.toList s.toList).isSome

def strEndsWith (s w : String) : Bool :=
  (eatLit w.toList.reverse s.toList.reverse).isSome

/-- Substring containment (`String.prototype.includes`). -/
def containsSeq (w : List Char) : List Char → Bool
  | [] => (eatLit w []).isSome
  | c :: rest => (eatLit w (c :: rest)).isSome || containsSeq w rest

def strIncludes (s w : String) : Bool := containsSeq w.toList s.toList

/-- The subquery pre-pass of `executeQuery`: on a copy of the
conditions, every `{operator: '=', value: '(SELECT ...)'}` entry is
resolved through `executeSubquery` (stripping one character from each
end: `.slice(1, -1)`) and rewritten to `{operator: 'in', value: ids}`. -/
def prepassConds (B : Backend) :
    List (String × CondEntry) →
    Except String (List (String × CondEntry)) × List BReq
  | [] => (.ok [], [])
  | (k, c) :: rest =>
    let keep :=
      match prepassConds B rest with
      | (.error e, tr) => (Except.error e, tr)
      | (.ok rest', tr) => (Except.ok ((k, c) :: rest'), tr)
    match c with
    | .withOp "=" (.str s) =>
      if strStartsWith s "(SELECT" && strEndsWith s ")" then
        let sub := String.mk (s.toList.drop 1).dropLast
        match executeSubquery B sub with
        | (.error e, tr) => (.error e, tr)
        | (.ok ids, tr) =>
          match prepassConds B rest with
          | (.error e, tr2) => (.error e, tr ++ tr2)
          | (.ok rest', tr2) =>
              (.ok ((k, .withOp "in" (.arr (ids.map (fun i => JPrim.num i)))) :: rest'),
               tr ++ tr2)
      else keep
    | _ => keep

/-- `col.toUpperCase().replace(/\s/g, '')`. -/
def noWsUpper (s : String) : String :=
  String.mk ((jsToUpper s).toList.filter (fun c => !jsIsWs c))

/-- `col.toLowerCase().replace(/\s/g, '')`. -/
def noWsLower (s : String) : String :=
  String.mk ((jsToLower s).toList.filter (fun c => !jsIsWs c))

/-- Try `/AS\s+(\w+)/i` at the head of `cs`. -/
def tryASAliasAt (cs : List Char) : Option (List Char) :=
  match eatLitCI "AS".toList none cs with
  | none => none
  | some (_, r1) =>
    match r1 with
    | c :: r2 =>
      if jsIsWs c then
        let cap := (r2.dropWhile jsIsWs).takeWhile jsWordChar
        if cap = [] then none else some cap
      else none
    | [] => none

/-- `col.match(/AS\s+(\w+)/i)`: the captured alias of the leftmost
match. -/
def searchASAlias : List Char → Option (List Char)
  | [] => none
  | c :: rest =>
      match tryASAliasAt (c :: rest) with
      | some cap => some cap
      | none => searchASAlias rest

def matchASAlias (s : String) : Option String :=
  (searchASAlias s.toList).map String.mk

/-- `col.match(/^(\w+)\(([^)]+)\)$/)`: aggregate-function shape
`FUNC(column)`. -/
def funcMatch (s : String) : Option (String × String) :=
  let cs := s.toList
  let f := cs.takeWhile jsWordChar
  let r := cs.dropWhile jsWordChar
  if f = [] then none
  else
    match r with
    | '(' :: rest =>
      let inner := rest.takeWhile (fun c => c ≠ ')')
      let r2 := rest.dropWhile (fun c => c ≠ ')')
      if inner = [] then none
      else if r2 = [')'] then some (String.mk f, String.mk inner)
      else none
    | _ => none

/-- Does this conditions field (`query.conditions`, the original one)
count as absent-or-empty (`!query.conditions ||
Object.keys(query.conditions).length === 0`)? -/
def condsEmpty : Option (List (String × CondEntry)) → Bool
  | none => true
  | some l => l.length == 0

def listEmptyOpt {α : Type} : Option (List α) → Bool
  | none => true
  | some l => l.length == 0

def lookupCond (conds : List (String × CondEntry)) (k : String) : Option CondEntry :=
  (conds.find? (fun p => p.1 = k)).map (fun p => p.2)

/-- RPC check 1: `get_average_salary` (overall average salary). -/
def aggCheck1 (B : Backend) (query : DatabaseQuery) (cols : List String) :
    Option (Except String (Option (List Row)) × List BReq) :=
  let avgSalaryColumn := cols.find? (fun col => strStartsWith (noWsUpper col) "AVG(SALARY)")
  let detectedAvgSalaryAlias := avgSalaryColumn.bind matchASAlias
  let fire :=
    jsToLower query.table = "employees" &&
    avgSalaryColumn.isSome &&
    cols.length == 1 && strIncludes (noWsUpper (cols.headD "")) "AVG(SALARY)" &&
    condsEmpty query.conditions &&
    listEmptyOpt query.groupBy &&
    listEmptyOpt query.orderBy &&
    !limitTruthy query.limit
  if fire then
    let aliasToUse := detectedAvgSalaryAlias.getD "avg_salary"
    match B.onRpc "get_average_salary" with
    | .error e => some (.error ("RPC Error: " ++ e), [.rpcCall "get_average_salary"])
    | .ok rpcData =>
      match rpcData with
      | some (r0 :: _) =>
        (match getField r0 "avg_salary" with
         | .null => some (.ok (some [[(aliasToUse, JVal.null)]]), [.rpcCall "get_average_salary"])
         | v => some (.ok (some [[(aliasToUse, parseFloatStr v)]]), [.rpcCall "get_average_salary"]))
      | _ => some (.ok (some []), [.rpcCall "get_average_salary"])
  else none

/-- RPC check 2: `get_department_with_highest_avg_salary`. -/
def aggCheck2 (B : Backend) (query : DatabaseQuery) (cols : List String) :
    Option (Except String (Option (List Row)) × List BReq) :=
  let deptAvgSalaryColumn := cols.find? (fun col => strIncludes (noWsUpper col) "AVG(SALARY)")
  let detectedDeptAvgSalaryAlias := deptAvgSalaryColumn.bind matchASAlias
  let departmentColumnExists := cols.any (fun col => noWsLower col = "department")
  let fire :=
    jsToLower query.table = "employees" &&
    departmentColumnExists &&
    deptAvgSalaryColumn.isSome &&
    cols.length == 2 &&
    condsEmpty query.conditions &&
    (match query.orderBy with
     | some [ob] =>
        (noWsUpper ob.column = "AVG(SALARY)" ||
         (match detectedDeptAvgSalaryAlias with
          | some al => jsToLower ob.column = jsToLower al
          | none => false)) &&
        jsToLower ob.direction = "desc"
     | _ => false) &&
    query.limit == some 1
  if fire then
    let aliasForAvg := detectedDeptAvgSalaryAlias.getD "avg_salary"
    match B.onRpc "get_department_with_highest_avg_salary" with
    | .error e =>
        some (.error ("RPC Error: " ++ e), [.rpcCall "get_department_with_highest_avg_salary"])
    | .ok rpcData =>
      match rpcData with
      | some (r0 :: _) =>
          some (.ok (some [setAssoc (setAssoc [] "department" (getField r0 "department"))
                             aliasForAvg (parseFloatStr (getField r0 "avg_salary"))]),
                [.rpcCall "get_department_with_highest_avg_salary"])
      | _ => some (.ok (some []), [.rpcCall "get_department_with_highest_avg_salary"])
  else none

/-- RPC check 3: `get_employee_work_hours` (total worked hours of one
employee in a date range).  Unlike checks 1, 2 and 4 this one reads the
pre-passed `conditions` copy.  When the inner type guards fail the
source falls through to the next check (no `else`). -/
def aggCheck3 (today : CalDate) (B : Backend) (query : DatabaseQuery)
    (conds : List (String × CondEntry)) (cols : List String) :
    Option (Except String (Option (List Row)) × List BReq) :=
  let fire :=
    jsToLower query.table = "attendance" &&
    cols.length == 1 &&
    noWsLower (cols.headD "") = "sum(total_hours)" &&
    (match lookupCond conds "emp_id" with
     | some (.withOp _ _) => true
     | _ => false) &&
    (match lookupCond conds "date" with
     | some (.withOp op _) => jsToUpper op = "BETWEEN"
     | _ => false)
  if fire then
    let empIdValue :=
      match lookupCond conds "emp_id" with
      | some (.withOp _ v) => v
      | _ => JVal.undef
    let dateConditionValue :=
      match lookupCond conds "date" with
      | some (.withOp _ v) => v
      | _ => JVal.undef
    -- `typeof empIdValue === 'string' ? parseInt(...) : empIdValue`
    let empIdNum : JVal :=
      match empIdValue with
      | .str s => parseIntJS s
      | v => v
    -- `typeof empId === 'number' && !isNaN(empId) && typeof dateConditionValue === 'string'`
    match empIdNum, dateConditionValue with
    | .num empId, .str dv =>
      match splitBetweenParts dv with
      | [p1, p2] =>
        let startDate := parseSQLiteDate today p1
        let endDate := parseSQLiteDate today p2
        (match B.onRpcWorkHours empId startDate endDate with
         | .error e =>
             some (.error ("RPC Error: " ++ e), [.rpcWorkHours empId startDate endDate])
         | .ok rpcData =>
           let totalHours : JVal :=
             match rpcData with
             | some (r0 :: _) =>
               (match getField r0 "total_worked_hours" with
                | .null => .num 0
                | v => parseFloatStr v)
             | _ => .num 0
           some (.ok (some [[("sum_total_hours", totalHours)]]),
                 [.rpcWorkHours empId startDate endDate]))
      | _ => none
    | _, _ => none
  else none

/-- RPC check 4: `get_employee_with_most_absences`.  Reads the original
`query.conditions`; note the table comparison and the status
operator/value comparisons are exact (`===`, no case folding), and no
order direction is checked. -/
def aggCheck4 (B : Backend) (query : DatabaseQuery) (cols : List String) :
    Option (Except String (Option (List Row)) × List BReq) :=
  let countColumnAbsence := cols.find? (fun col => strStartsWith (jsToUpper col) "COUNT(*)")
  let detectedCountAliasForAbsence := countColumnAbsence.bind matchASAlias
  let fire :=
    query.type = "AGGREGATE" &&
    query.table = "attendance" &&
    detectedCountAliasForAbsence.isSome &&
    cols.contains "emp_id" &&
    (match countColumnAbsence with
     | some cc => cols.contains cc
     | none => false) &&
    (match query.conditions with
     | some l =>
       (match lookupCond l "status" with
        | some (.withOp op v) => op = "=" && v == JVal.str "absent"
        | _ => false)
     | none => false) &&
    (match query.orderBy with
     | some [ob] =>
        (match detectedCountAliasForAbsence with
         | some al => jsToLower ob.column = jsToLower al
         | none => false)
     | _ => false) &&
    query.limit == some 1
  if fire then
    match B.onRpc "get_employee_with_most_absences" with
    | .error e =>
        some (.error ("RPC Error: " ++ e), [.rpcCall "get_employee_with_most_absences"])
    | .ok rpcData =>
      match rpcData, detectedCountAliasForAbsence with
      | some (r0 :: _), some al =>
          some (.ok (some [setAssoc (setAssoc [] "emp_id" (getField r0 "emp_id"))
                             al (getField r0 "absence_count")]),
                [.rpcCall "get_employee_with_most_absences"])
      | rpcData', _ =>
          -- `return rpcData` unchanged (possibly null)
          some (.ok rpcData', [.rpcCall "get_employee_with_most_absences"])
  else none

/-- RPC check 5: `get_employee_with_most_leave`. -/
def aggCheck5 (B : Backend) (query : DatabaseQuery) (cols : List String) :
    Option (Except String (Option (List Row)) × List BReq) :=
  let guardOk := jsToLower query.table = "leave_requests" && cols.length == 2
  let empIdColumnExistsForLeave :=
    guardOk && cols.any (fun col => strIncludes (jsToLower col) "emp_id")
  let sumColumnDefinition :=
    if guardOk then cols.find? (fun col => strStartsWith (noWsLower col) "sum(days)")
    else none
  let detectedSumDaysAliasForLeave : Option String :=
    sumColumnDefinition.bind (fun cdef =>
      match jsSplitWsWordWs "as" cdef with
      | _ :: p1 :: _ => some (jsToLower (jsTrim p1))
      | _ => none)
  let fire :=
    jsToLower query.table = "leave_requests" &&
    empIdColumnExistsForLeave &&
    sumColumnDefinition.isSome &&
    detectedSumDaysAliasForLeave.isSome &&
    (match query.orderBy with
     | some [ob] =>
        (match detectedSumDaysAliasForLeave with
         | some al => jsToLower ob.column = al
         | none => false) &&
        jsToLower ob.direction = "desc"
     | _ => false) &&
    query.limit == some 1
  if fire then
    let al := detectedSumDaysAliasForLeave.getD ""
    match B.onRpc "get_employee_with_most_leave" with
    | .error e =>
        some (.error ("RPC Error: " ++ e), [.rpcCall "get_employee_with_most_leave"])
    | .ok rpcData =>
      match rpcData with
      | some (r0 :: _) =>
          some (.ok (some [setAssoc (setAssoc [] "emp_id" (getField r0 "emp_id"))
                             al (parseFloatStr (getField r0 "total_leave_days"))]),
                [.rpcCall "get_employee_with_most_leave"])
      | _ => some (.ok (some []), [.rpcCall "get_employee_with_most_leave"])
  else none

/-- The generic aggregate fallback: build the `alias:definition` select
string and apply the conditions with AND logic (no ordering or limit is
applied on this path). -/
def aggFallback (today : CalDate) (B : Backend) (query : DatabaseQuery)
    (conds : List (String × CondEntry)) (cols : List String) :
    Except String (Option (List Row)) × List BReq :=
  let aggregateColumns : List (String × String) :=
    cols.foldl (fun acc col =>
      match funcMatch col with
      | some (func, column) =>
        let aliasStr :=
          jsToLower func ++
          (if column = "*" then "_all"
           else "_" ++ String.mk (column.toList.filter jsWordChar))
        setAssoc acc aliasStr (jsToLower func ++ "(" ++ column ++ ")")
      | none => setAssoc acc col col) []
  let selectStr :=
    String.intercalate ", " (aggregateColumns.map (fun p => p.1 ++ ":" ++ p.2))
  match buildFilterOpsAND today conds with
  | .error e => (.error e, [])
  | .ok filters =>
    let g : GenericQuery := { table := query.table, select := selectStr,
                              filters := filters, order := [], limit := none }
    match B.onGeneric g with
    | .error e => (.error e, [.generic g])
    | .ok data => (.ok data, [.generic g])

/-- The SELECT/COUNT path of `executeQuery` (everything in the `else`
branch of the `AGGREGATE` test): column projection, OR- or AND-logic
conditions, ordering and limit. -/
def selectPath (today : CalDate) (B : Backend) (query : DatabaseQuery)
    (conds : List (String × CondEntry)) :
    Except String (Option (List Row)) × List BReq :=
  let selectStr :=
    match query.columns with
    | some (c :: cs) => String.intercalate ", " (c :: cs)
    | _ => "*"
  let filtersE : Except String (List FilterOp) :=
    if query.conditionLogic == some "OR" then
      match buildOrAtoms today conds with
      | .error e => .error e
      | .ok orFilters =>
          -- `if (orFilters.length > 0) finalQuery = finalQuery.or(orFilters.join(','))`
          .ok (if orFilters.length > 0 then [.orFilter orFilters] else [])
    else
      buildFilterOpsAND today conds
  match filtersE with
  | .error e => (.error e, [])
  | .ok filters =>
    let g : GenericQuery :=
      { table := query.table, select := selectStr, filters := filters,
        order := (query.orderBy.getD []).map (fun ob => (ob.column, ob.direction == "asc")),
        limit := if limitTruthy query.limit then query.limit else none }
    match B.onGeneric g with
    | .error e => (.error e, [.generic g])
    | .ok data => (.ok data, [.generic g])

/-- `executeQuery` from the database helper: subquery pre-pass, the
five RPC shape checks (for `AGGREGATE` queries), the generic aggregate
fallback and the SELECT/COUNT path.  The result is paired with the
trace of backend requests issued, in order.  The surrounding
`try/catch` logs and rethrows, so it is the identity on errors. -/
def executeQuery (today : CalDate) (B : Backend) (query : DatabaseQuery) :
    Except String (Option (List Row)) × List BReq :=
  match prepassConds B (query.conditions.getD []) with
  | (.error e, tr) => (.error e, tr)
  | (.ok conds, tr) =>
    if query.type = "AGGREGATE" then
      match query.columns with
      | none => (.error "Columns must be specified for aggregate queries", tr)
      | some [] => (.error "Columns must be specified for aggregate queries", tr)
      | some cols =>
        match aggCheck1 B query cols with
        | some (res, tr1) => (res, tr ++ tr1)
        | none =>
          match aggCheck2 B query cols with
          | some (res, tr1) => (res, tr ++ tr1)
          | none =>
            match aggCheck3 today B query conds cols with
            | some (res, tr1) => (res, tr ++ tr1)
            | none =>
              match aggCheck4 B query cols with
              | some (res, tr1) => (res, tr ++ tr1)
              | none =>
                match aggCheck5 B query cols with
                | some (res, tr1) => (res, tr ++ tr1)
                | none =>
                  let (res, tr1) := aggFallback today B query conds cols
                  (res, tr ++ tr1)
    else
      let (res, tr1) := selectPath today B query conds
      (res, tr ++ tr1)

/-! ## Row-level semantics of the compiled filters

PostgREST filters translate to SQL predicates; the fragment the
embedded queries use is modelled here: equality and ordering on
comparable scalars (strings compare lexicographically, which orders
ISO dates correctly; SQL three-valued logic makes every comparison
with NULL fail), `in`-membership, and case-insensitive `LIKE` with `%`
wildcards.  A `.or(...)` filter holds iff one of its atoms holds. -/

/-- Lexicographic comparison on character lists (SQL text collation on
the ASCII strings the embedded queries compare). -/
def charsLt : List Char → List Char → Bool
  | [], [] => false
  | [], _ :: _ => true
  | _ :: _, [] => false
  | a :: as, b :: bs => if a < b then true else if b < a then false else charsLt as bs

def jvalLe : JVal → JVal → Bool
  | .str a, .str b => !charsLt b.toList a.toList
  | .num a, .num b => decide (a ≤ b)
  | _, _ => false

def jvalLt : JVal → JVal → Bool
  | .str a, .str b => charsLt a.toList b.toList
  | .num a, .num b => decide (a < b)
  | _, _ => false

/-- SQL scalar equality: comparisons with NULL (or with an absent
column) never hold. -/
def scalarEqHolds (a b : JVal) : Bool :=
  match a with
  | .null => false
  | .undef => false
  | _ => a == b

/-- Case-insensitive SQL `LIKE` with `%` wildcards (`_` does not occur
in the embedded patterns). -/
def globCI (p t : List Char) : Bool :=
  match p, t with
  | [], [] => true
  | [], _ :: _ => false
  | '%' :: p', t =>
      globCI p' t ||
      (match t with
       | [] => false
       | _ :: t' => globCI ('%' :: p') t')
  | _ :: _, [] => false
  | c :: p', d :: t' => jsLowChar c = jsLowChar d && globCI p' t'
termination_by (p.length, t.length)

def atomHolds (row : Row) : OrAtom → Bool
  | .eq k v => scalarEqHolds (getField row k) v
  | .neq k v =>
      match getField row k with
      | .null => false
      | .undef => false
      | a => !(a == v)
  | .isNull k => getField row k == .null
  | .notIsNull k => !(getField row k == .null)
  | .inList k vs => vs.any (fun v => scalarEqHolds (getField row k) v)
  | .ilike k pat =>
      match getField row k with
      | .str s => globCI pat.toList s.toList
      | _ => false
  | .gt k v => jvalLt v (getField row k)
  | .gte k v => jvalLe v (getField row k)
  | .lt k v => jvalLt (getField row k) v
  | .lte k v => jvalLe (getField row k) v

def filterOpHolds (row : Row) : FilterOp → Bool
  | .eq k v => scalarEqHolds (getField row k) v
  | .neq k v =>
      match getField row k with
      | .null => false
      | .undef => false
      | a => !(a == v)
  | .isNull k => getField row k == .null
  | .notIsNull k => !(getField row k == .null)
  | .inList k vs => vs.any (fun v => scalarEqHolds (getField row k) v)
  | .ilike k pat =>
      match getField row k with
      | .str s => globCI pat.toList s.toList
      | _ => false
  | .gt k v => jvalLt v (getField row k)
  | .gte k v => jvalLe v (getField row k)
  | .lt k v => jvalLt (getField row k) v
  | .lte k v => jvalLe (getField row k) v
  | .orFilter atoms => atoms.any (atomHolds row)

/-- A row survives a compiled generic query iff it satisfies every
chained filter (chained PostgREST filters are conjunctive). -/
def rowPassesFilters (fs : List FilterOp) (row : Row) : Bool :=
  fs.all (filterOpHolds row)

/-- A backend whose generic-query engine filters a fixed table with
the row-level semantics above (used to exhibit concrete runs). -/
def tableBackend (db : List Row) : Backend :=
  { onRpc := fun _ => .error "no such rpc"
    onRpcWorkHours := fun _ _ _ => .error "no such rpc"
    onSub := fun _ => .ok (some [])
    onGeneric := fun g => .ok (some (db.filter (rowPassesFilters g.filters))) }

/-! ## The database-chat route (`POST` handler, final variant) -/

/-- `PERSONAL_QUESTION_PATTERNS`: each element embeds one source regex
as a disjunction of token sequences (see `RTok`).

```
/ฉัน|\bของฉัน\b|\bผม\b|\bดิฉัน\b|\bตัวเอง\b/i
/\bเรา\b|\bพวกเรา\b|\bของเรา\b/i
/\bการเข้างานของฉัน\b|\bวันลาของฉัน\b|\bเงินเดือนของฉัน\b/i
/\bมาทำงาน\b|\bขาดงาน\b|\bลางาน\b/i
```
-/
def PERSONAL_QUESTION_PATTERNS : List (List (List RTok)) :=
  [ [[thLit "ฉัน"], [.bnd, thLit "ของฉัน", .bnd], [.bnd, thLit "ผม", .bnd],
     [.bnd, thLit "ดิฉัน", .bnd], [.bnd, thLit "ตัวเอง", .bnd]],
    [[.bnd, thLit "เรา", .bnd], [.bnd, thLit "พวกเรา", .bnd], [.bnd, thLit "ของเรา", .bnd]],
    [[.bnd, thLit "การเข้างานของฉัน", .bnd], [.bnd, thLit "วันลาของฉัน", .bnd],
     [.bnd, thLit "เงินเดือนของฉัน", .bnd]],
    [[.bnd, thLit "มาทำงาน", .bnd], [.bnd, thLit "ขาดงาน", .bnd], [.bnd, thLit "ลางาน", .bnd]] ]

/-- `OTHER_EMPLOYEE_PATTERNS`:

```
/\bเงินเดือน\b.*?\b(\d+|\bของ.*?)\b/i   (group expanded into two alternatives)
/\bพนักงาน\b.*?\b\d+\b/i
/\bข้อมูล\b.*?(\bของ\b|\bสมชาย\b|\bสมหญิง\b|\bนาย\b|\bนาง\b|\bนางสาว\b)/i
/\bของเพื่อน\b/i
/\bของแผนก\b/i
```
-/
def OTHER_EMPLOYEE_PATTERNS : List (List (List RTok)) :=
  [ [[.bnd, thLit "เงินเดือน", .bnd, .anyLazy, .bnd, .digits, .bnd],
     [.bnd, thLit "เงินเดือน", .bnd, .anyLazy, .bnd, .bnd, thLit "ของ", .anyLazy, .bnd]],
    [[.bnd, thLit "พนักงาน", .bnd, .anyLazy, .bnd, .digits, .bnd]],
    [[.bnd, thLit "ข้อมูล", .bnd, .anyLazy, .bnd, thLit "ของ", .bnd],
     [.bnd, thLit "ข้อมูล", .bnd, .anyLazy, .bnd, thLit "สมชาย", .bnd],
     [.bnd, thLit "ข้อมูล", .bnd, .anyLazy, .bnd, thLit "สมหญิง", .bnd],
     [.bnd, thLit "ข้อมูล", .bnd, .anyLazy, .bnd, thLit "นาย", .bnd],
     [.bnd, thLit "ข้อมูล", .bnd, .anyLazy, .bnd, thLit "นาง", .bnd],
     [.bnd, thLit "ข้อมูล", .bnd, .anyLazy, .bnd, thLit "นางสาว", .bnd]],
    [[.bnd, thLit "ของเพื่อน", .bnd]],
    [[.bnd, thLit "ของแผนก", .bnd]] ]

/-- `PERSONAL_QUESTION_PATTERNS.some(pattern => pattern.test(message))`. -/
def personalMatch (message : String) : Bool :=
  PERSONAL_QUESTION_PATTERNS.any (fun p => toksTest p message)

/-- `OTHER_EMPLOYEE_PATTERNS.some(pattern => pattern.test(message))`. -/
def otherEmployeeMatch (message : String) : Bool :=
  OTHER_EMPLOYEE_PATTERNS.any (fun p => toksTest p message)

/-- Truthiness of the optional numeric `employeeId` of the request
body (`employeeId && ...`, `!employeeId`). -/
def empIdTruthy : Option Int → Bool
  | some n => n ≠ 0
  | none => false

/-- The JSON body shapes the handler can produce, one constructor per
field layout. -/
inductive RespBody where
  /-- `{ error: string }` -/
  | errField (error : String)
  /-- `{ reply: string, restricted: true }` -/
  | replyRestricted (reply : String)
  /-- `{ answer: string }` -/
  | answerField (answer : String)
  /-- `{ reply, queryStructure, resultsCount, personalized }` -/
  | success (reply : String) (queryStructure : DatabaseQuery)
      (resultsCount : Nat) (personalized : Bool)
deriving DecidableEq, Repr

/-- A `NextResponse.json(body, {status})` value. -/
structure Response where
  status : Nat
  body : RespBody
deriving DecidableEq, Repr

/-- The guarded-rejection message. -/
def restrictedMsg : String :=
  "ฉันไม่สามารถเข้าถึงข้อมูลของพนักงานคนอื่นได้ ขออภัยในความไม่สะดวกนี้"

/-- The clarification message for a personal question without an
employee context. -/
def clarifyMsg : String :=
  "It appears you\x27re asking about personal information (e.g., using \x27I\x27 or \x27my\x27). However, I don\x27t have a specific employee context right now. If you\x27re asking about a particular employee, please include their name or ID. Otherwise, you can ask a general HR question."

/-- The catch-block of the handler: a thrown error message is mapped
to the generic Thai failure message, or to the friendlier one when the
text contains the translator's `Could not understand` marker. -/
def mapDbChatError (e : String) : String :=
  if strIncludes e "Could not understand" then
    "ขออภัย ไม่เข้าใจคำถามของคุณ กรุณาลองถามใหม่ด้วยคำที่ชัดเจนขึ้น"
  else
    "ขออภัย ไม่สามารถประมวลผลคำถามของคุณได้ กรุณาลองใหม่อีกครั้ง"

/-- Does the translated query search `employees` with the same `LIKE`
value on both `first_name` and `last_name`? -/
def nameOrRewriteFires (q : DatabaseQuery) : Bool :=
  q.table = "employees" &&
  (match q.conditions with
   | some l =>
     (match lookupCond l "first_name", lookupCond l "last_name" with
      | some (.withOp op1 v1), some (.withOp op2 v2) =>
          op1 = "LIKE" && op2 = "LIKE" && v1 == v2
      | _, _ => false)
   | none => false)

/-- The first_name/last_name rewrite: when the translated query
searches `employees` with the same `LIKE` value on both `first_name`
and `last_name`, the handler sets `conditionLogic = 'OR'`. -/
def applyNameOrRewrite (q : DatabaseQuery) : DatabaseQuery :=
  if nameOrRewriteFires q then { q with conditionLogic := some "OR" } else q

/-- The five tables carrying `emp_id`. -/
def empIdTables : List String :=
  ["employees", "attendance", "leave_requests", "payroll", "benefits"]

/-- The guard's condition injection:
`queryStructure.conditions.emp_id = { operator: '=', value:
Number(employeeId) }` when the table is one of the five known
entities.  (`conditions` is initialised to `{}` first in either
case.) -/
def injectEmpId (q : DatabaseQuery) (empId : Int) : DatabaseQuery :=
  let conds := q.conditions.getD []
  if empIdTables.contains q.table then
    { q with conditions := some (setAssoc conds "emp_id" (.withOp "=" (.num empId))) }
  else
    { q with conditions := some conds }

def jvalToPrim : JVal → JPrim
  | .str s => .str s
  | .num n => .num n
  | .bool b => .bool b
  | .null => .null
  | .undef => .undef
  | .nan => .nan
  | .arr _ => .null

/-- `[...new Set(results.map(r => r.emp_id).filter(id => id != null))]`:
the distinct `emp_id` values (loose `!= null` drops both `null` and
`undefined`), in first-occurrence order.  Result rows carry scalar
`emp_id` fields, which `jvalToPrim` embeds. -/
def collectEmpIds (rows : List Row) : List JPrim :=
  (((rows.map (fun r => getField r "emp_id")).map jvalToPrim).filter
    (fun v => !(v == JPrim.null) && !(v == JPrim.undef))).eraseDups

/-- The enrichment lookup built when the results carry `emp_id`. -/
def employeeNameQuery (empIds : List JPrim) : DatabaseQuery :=
  { type := "SELECT"
    table := "employees"
    columns := some ["emp_id", "first_name", "last_name"]
    conditions := some [("emp_id", .withOp "IN" (.arr empIds))] }

/-- A JS `Map` with `JVal` keys: `set` overwrites in place or appends. -/
def mapSet (m : List (JVal × String)) (k : JVal) (v : String) : List (JVal × String) :=
  match m with
  | [] => [(k, v)]
  | (k', v') :: rest => if k' == k then (k, v) :: rest else (k', v') :: mapSet rest k v

def mapGet (m : List (JVal × String)) (k : JVal) : Option String :=
  (m.find? (fun p => p.1 == k)).map (fun p => p.2)

/-- `employeeMap.set(emp.emp_id, `${emp.first_name || ''}
${emp.last_name || ''}`.trim())` over the lookup rows. -/
def buildEmployeeMap (details : List Row) : List (JVal × String) :=
  details.foldl (fun acc emp =>
    let fn := getField emp "first_name"
    let ln := getField emp "last_name"
    let fv := if jvalTruthy fn then fn else JVal.str ""
    let lv := if jvalTruthy ln then ln else JVal.str ""
    mapSet acc (getField emp "emp_id") (jsTrim (jvalToStr fv ++ " " ++ jvalToStr lv))) []

/-- `results.map(r => ({...r, employee_full_name:
employeeMap.get(r.emp_id) || null}))`: a missing entry (`undefined`)
and an empty name both coerce to `null`. -/
def enrichRows (m : List (JVal × String)) (rows : List Row) : List Row :=
  rows.map (fun r =>
    let nameVal : JVal :=
      match mapGet m (getField r "emp_id") with
      | some s => if s = "" then .null else .str s
      | none => .null
    setAssoc r "employee_full_name" nameVal)

/-- The route's collaborators for one request: the translation result
(the language-model call on this message), the query executor (the
route delegates to `executeQuery`; abstracted so the route can be
analysed for every backend behaviour) and the narration result. -/
structure RouteCtx where
  translate : Except String DatabaseQuery
  exec : DatabaseQuery → Except String (Option (List Row))
  narrate : String → List Row → DatabaseQuery → Bool → Except String String

/-- The personalization main-query rewrite the handler performs before
execution: the name-OR rewrite followed, for a personal question with
an employee context, by the `emp_id` injection. -/
def routeMainQuery (message : String) (employeeId : Option Int)
    (q0 : DatabaseQuery) : DatabaseQuery :=
  let q1 := applyNameOrRewrite q0
  if personalMatch message && empIdTruthy employeeId then
    injectEmpId q1 (employeeId.getD 0)
  else q1

/-- The name-enrichment step: the possibly-enriched results and the
enrichment query issued (if any).  A lookup failure — or a null lookup
payload, which makes the source's `forEach` throw inside the guarded
`try` — is swallowed and the original rows are kept. -/
def routeEnrich (ctx : RouteCtx) (results0 : Option (List Row)) :
    Option (List Row) × List DatabaseQuery :=
  match results0 with
  | some rows =>
    if rows.length > 0 && hasField (rows.headD []) "emp_id" then
      if (collectEmpIds rows).length > 0 then
        match ctx.exec (employeeNameQuery (collectEmpIds rows)) with
        | .error _ => (some rows, [employeeNameQuery (collectEmpIds rows)])
        | .ok none => (some rows, [employeeNameQuery (collectEmpIds rows)])
        | .ok (some details) =>
            (some (enrichRows (buildEmployeeMap details) rows),
             [employeeNameQuery (collectEmpIds rows)])
      else (some rows, [])
    else (some rows, [])
  | none => (none, [])

/-- Narration and response assembly after execution (the tail of the
handler's success path). -/
def routeRespond (ctx : RouteCtx) (message : String) (employeeId : Option Int)
    (isPersonalQuestion : Bool) (q2 : DatabaseQuery) (results0 : Option (List Row)) :
    Response × List DatabaseQuery :=
  match routeEnrich ctx results0 with
  | (results1, extraQs) =>
    -- `safeResults` / `resultsCount`: the null-checked results
    match ctx.narrate message (results1.getD []) q2 (empIdTruthy employeeId) with
    | .error e => (⟨500, .errField (mapDbChatError e)⟩, q2 :: extraQs)
    | .ok reply =>
        (⟨200, .success reply q2 ((results1.map (fun l => l.length)).getD 0)
            (isPersonalQuestion && empIdTruthy employeeId)⟩, q2 :: extraQs)

/-- The `POST` handler of the database-chat route (final variant),
with its remote collaborators abstracted into `ctx`.  Returns the
response and the list of queries passed to `executeQuery`, in order. -/
def handlePost (ctx : RouteCtx) (message : String) (employeeId : Option Int) :
    Response × List DatabaseQuery :=
  if message = "" then (⟨400, .errField "Message is required"⟩, [])
  else if empIdTruthy employeeId && otherEmployeeMatch message then
    -- `isAccessingOtherEmployeeData`: guarded rejection
    (⟨200, .replyRestricted restrictedMsg⟩, [])
  else
    match ctx.translate with
    | .error e => (⟨500, .errField (mapDbChatError e)⟩, [])
    | .ok q0 =>
      if personalMatch message && !empIdTruthy employeeId then
        -- personal question without an employee context: clarification
        (⟨200, .answerField clarifyMsg⟩, [])
      else
        match ctx.exec (routeMainQuery message employeeId q0) with
        | .error e =>
            (⟨500, .errField (mapDbChatError e)⟩, [routeMainQuery message employeeId q0])
        | .ok results0 =>
            routeRespond ctx message employeeId (personalMatch message)
              (routeMainQuery message employeeId q0) results0

/-! ## Concrete instances used by witnesses and counterexamples -/

/-- A fixed current date used for concrete runs: 2026-10-11. -/
def day0 : CalDate := ⟨2026, 10, 11⟩

/-- The C6 scenario query: overall average salary. -/
def avgSalaryQuery : DatabaseQuery :=
  { type := "AGGREGATE", table := "employees", columns := some ["AVG(salary)"] }

/-- A concrete backend implementing only `get_average_salary`. -/
def avgOnlyBackend : Backend :=
  { onRpc := fun n =>
      if n = "get_average_salary" then .ok (some [[("avg_salary", JVal.num 52000)]])
      else .error "no such rpc"
    onRpcWorkHours := fun _ _ _ => .error "no such rpc"
    onSub := fun _ => .ok (some [])
    onGeneric := fun _ => .error "no such table" }

/-- A context whose translator answers the salary question with a
`payroll` query and whose backend and narrator always succeed. -/
def ctxSalary : RouteCtx :=
  { translate := .ok { type := "SELECT", table := "payroll" }
    exec := fun _ => .ok (some [])
    narrate := fun _ _ _ _ => .ok "ok" }

/-- Does a response body have the guard shape the specification
claims, `{ reply: string, restricted?: true }`? -/
def isGuardReplyShape : RespBody → Bool
  | .replyRestricted _ => true
  | _ => false

/-- A context whose enrichment lookup fails: the main query returns a
row carrying `emp_id`, the employees name lookup errors, narration
succeeds. -/
def ctxEnrichFail : RouteCtx :=
  { translate := .ok { type := "SELECT", table := "attendance" }
    exec := fun q =>
      if q = employeeNameQuery [JPrim.num 1] then .error "boom"
      else .ok (some [[("emp_id", JVal.num 1)]])
    narrate := fun _ _ _ _ => .ok "done" }

/-- A context whose translation fails with the parse-failure marker. -/
def ctxTranslateFail : RouteCtx :=
  { translate := .error "Could not understand the query"
    exec := fun _ => .ok (some [])
    narrate := fun _ _ _ _ => .ok "ok" }

/-- A context whose translator emits an `attendance` query whose
`emp_id` is already a name-resolution subquery value — the guard's
injection must overwrite it. -/
def ctxSubqueryEmpId : RouteCtx :=
  { translate := .ok
      { type := "SELECT"
        table := "attendance"
        conditions := some
          [("emp_id", .withOp "="
              (.str "(SELECT emp_id FROM employees WHERE first_name LIKE \x27%Malee%\x27)"))] }
    exec := fun _ => .ok (some [])
    narrate := fun _ _ _ _ => .ok "ok" }



/-- A single-BETWEEN `SELECT` query under the default AND logic. -/
def betweenAndQuery : DatabaseQuery :=
  { type := "SELECT"
    table := "attendance"
    conditions := some [("date", .withOp "BETWEEN" (.str "2026-01-01 AND 2026-01-31"))] }

/-- The same single-BETWEEN query with `conditionLogic: \x22OR\x22`. -/
def betweenOrQuery : DatabaseQuery :=
  { type := "SELECT"
    table := "attendance"
    conditions := some [("date", .withOp "BETWEEN" (.str "2026-01-01 AND 2026-01-31"))]
    conditionLogic := some "OR" }

/-- A row whose date lies outside the January interval. -/
def rowJune : Row := [("date", JVal.str "2026-06-15")]


end HRChat

namespace HRChat

theorem prepassConds_nil (B : Backend) : prepassConds B [] = (.ok [], []) := rfl

theorem personalMatch_salary : personalMatch "เงินเดือนของฉัน" = true := by decide

theorem otherMatch_salary : otherEmployeeMatch "เงินเดือนของฉัน" = false := by decide

theorem lookupCond_setAssoc (l : List (String × CondEntry)) (k : String) (v : CondEntry) :
    lookupCond (setAssoc l k v) k = some v := by
  induction l with
  | nil => simp [setAssoc, lookupCond]
  | cons p rest ih =>
    obtain ⟨k', v'⟩ := p
    by_cases hk : k' = k
    · simp [setAssoc, hk, lookupCond]
    · simp only [setAssoc, if_neg hk, lookupCond, List.find?]
      simp only [lookupCond] at ih
      simp [hk, ih]

theorem applyNameOrRewrite_table (q : DatabaseQuery) :
    (applyNameOrRewrite q).table = q.table := by
  unfold applyNameOrRewrite
  split <;> rfl

theorem injectEmpId_lookup (q : DatabaseQuery) (n : Int)
    (h : empIdTables.contains q.table = true) :
    lookupCond (((injectEmpId q n).conditions).getD []) "emp_id" =
      some (.withOp "=" (.num n)) := by
  unfold injectEmpId
  rw [h]
  simp only [if_true, Option.getD_some]
  exact lookupCond_setAssoc _ _ _

/-- Whatever the narrator and the enrichment do, `routeRespond` puts
the executed main query at the head of the query trace. -/
theorem routeRespond_trace (ctx : RouteCtx) (m : String) (id : Option Int) (p : Bool)
    (q2 : DatabaseQuery) (r0 : Option (List Row)) :
    ∃ resp rest, routeRespond ctx m id p q2 r0 = (resp, q2 :: rest) := by
  unfold routeRespond
  rcases hE : routeEnrich ctx r0 with ⟨results1, extraQs⟩
  dsimp only
  rcases hN : ctx.narrate m (results1.getD []) q2 (empIdTruthy id) with e | r
  · exact ⟨_, _, rfl⟩
  · exact ⟨_, _, rfl⟩

/-! ## Claims -/

/-- C6: an AGGREGATE query `{table: "employees", columns:
["AVG(salary)"], type: "AGGREGATE"}` with no conditions, groupBy,
orderBy or limit is routed by `executeQuery` to the dedicated
average-salary server-side procedure — the only backend request of the
whole run is the `get_average_salary` RPC, so the generic query builder
is never consulted — and a numeric RPC payload is returned as the
single row `{avg_salary: v}`. -/
theorem avgSalaryAggregateRoute (today : CalDate) (B : Backend) (v : Int)
    (h : B.onRpc "get_average_salary" = .ok (some [[("avg_salary", JVal.num v)]])) :
    executeQuery today B avgSalaryQuery =
      (.ok (some [[("avg_salary", JVal.num v)]]), [.rpcCall "get_average_salary"]) := by
  simp only [executeQuery, avgSalaryQuery, Option.getD_none, prepassConds_nil, aggCheck1, h]
  rfl

theorem avgSalaryAggregateRoute_witness :
    executeQuery day0 avgOnlyBackend avgSalaryQuery =
      (.ok (some [[("avg_salary", JVal.num 52000)]]), [.rpcCall "get_average_salary"]) :=
  avgSalaryAggregateRoute day0 avgOnlyBackend 52000 (by rfl)

/-- C7: `executeSubquery` fails with an unsupported-subquery error for
every subquery text that does not begin (case-insensitively) with
`select emp_id from employees where`, and for every text with that
prefix in which none of the recognized clause shapes occur
(`first_name LIKE '%X%'`, `last_name LIKE '%X%'`, `emp_id = N`); it
never silently returns an empty match for such texts.  When it
succeeds it returns a plain (possibly empty) list of identifiers —
never null, which the `List Int` result type of the embedding makes
structural — and at least one recognized clause was extracted. -/
theorem subqueryResolutionStrict :
    (∀ (B : Backend) (s : String),
        lowStartsWith "select emp_id from employees where" s = false →
        executeSubquery B s = (.error ("Unsupported subquery structure: " ++ s), [])) ∧
    (∀ (B : Backend) (s : String),
        lowStartsWith "select emp_id from employees where" s = true →
        searchNameLike "first_name".toList s.toList = none →
        searchNameLike "last_name".toList s.toList = none →
        searchEmpIdEq s.toList = none →
        executeSubquery B s = (.error ("Unsupported subquery conditions: " ++ s), [])) ∧
    (∀ (B : Backend) (s : String) (ids : List Int) (tr : List BReq),
        executeSubquery B s = (.ok ids, tr) →
        ∃ fs, parseSubquery s = .ok fs ∧ fs ≠ []) := by
  refine ⟨?_, ?_, ?_⟩
  · intro B s h
    unfold executeSubquery parseSubquery
    rw [h]
    rfl
  · intro B s h hf hl he
    unfold executeSubquery parseSubquery subqueryBaseFilters
    rw [h, hf, hl, he]
    rfl
  · intro B s ids tr h
    unfold executeSubquery at h
    rcases hp : parseSubquery s with e | fs
    · rw [hp] at h
      cases h
    · refine ⟨fs, rfl, ?_⟩
      unfold parseSubquery at hp
      by_cases h1 : lowStartsWith "select emp_id from employees where" s
      · rw [h1] at hp
        rcases hb : subqueryBaseFilters s with _ | ⟨b, bs⟩
        · rw [hb] at hp
          rcases he : searchEmpIdEq s.toList with _ | n
          · rw [he] at hp
            cases hp
          · rw [he] at hp
            cases hp
            simp
        · rw [hb] at hp
          cases hp
          simp
      · rw [Bool.not_eq_true] at h1
        rw [h1] at hp
        cases hp

theorem subqueryResolutionStrict_witness :
    executeSubquery (tableBackend []) "DELETE FROM employees" =
      (.error ("Unsupported subquery structure: DELETE FROM employees"), []) ∧
    executeSubquery (tableBackend [])
        "select emp_id from employees where department = \x27IT\x27" =
      (.error ("Unsupported subquery conditions: select emp_id from employees where department = \x27IT\x27"), []) :=
  ⟨subqueryResolutionStrict.1 (tableBackend []) "DELETE FROM employees" (by decide),
   subqueryResolutionStrict.2.1 (tableBackend [])
     "select emp_id from employees where department = \x27IT\x27"
     (by decide) (by decide) (by decide) (by decide)⟩

/-- C3: for the question "เงินเดือนของฉัน" with no `employeeId`, the
handler returns the fixed clarification response with no database
query executed (whenever translation itself succeeds — the source
calls the translator before the clarification check); for the same
question with `employeeId = 5`, the handler passes the question
through — the first executed query is the rewritten translated query —
and that query carries the injected condition
`emp_id = {operator '=', value 5}` (stated for translator outputs on
the five `emp_id`-carrying tables, the invariant domain of the
Intermediate Query model). -/
theorem personalSalaryGuardScenario :
    (∀ (ctx : RouteCtx) (q : DatabaseQuery), ctx.translate = .ok q →
        handlePost ctx "เงินเดือนของฉัน" none = (⟨200, .answerField clarifyMsg⟩, [])) ∧
    (∀ (ctx : RouteCtx) (q : DatabaseQuery), ctx.translate = .ok q →
        empIdTables.contains q.table = true →
        (handlePost ctx "เงินเดือนของฉัน" (some 5)).2.head? =
            some (routeMainQuery "เงินเดือนของฉัน" (some 5) q) ∧
        lookupCond (((routeMainQuery "เงินเดือนของฉัน" (some 5) q).conditions).getD [])
            "emp_id" = some (.withOp "=" (.num 5))) := by
  constructor
  · intro ctx q h
    obtain ⟨tr, ex, na⟩ := ctx
    simp only [RouteCtx.translate] at h
    subst h
    rfl
  · intro ctx q h htab
    obtain ⟨tr, ex, na⟩ := ctx
    simp only [RouteCtx.translate] at h
    subst h
    have hlook : lookupCond (((routeMainQuery "เงินเดือนของฉัน" (some 5) q).conditions).getD [])
        "emp_id" = some (.withOp "=" (.num 5)) := by
      unfold routeMainQuery
      rw [personalMatch_salary]
      simp only [empIdTruthy, Bool.and_true]
      have ht2 : empIdTables.contains (applyNameOrRewrite q).table = true := by
        rw [applyNameOrRewrite_table]; exact htab
      simpa using injectEmpId_lookup (applyNameOrRewrite q) 5 ht2
    refine ⟨?_, hlook⟩
    show ((match ex (routeMainQuery "เงินเดือนของฉัน" (some 5) q) with
          | .error e => ((⟨500, .errField (mapDbChatError e)⟩ : Response),
              [routeMainQuery "เงินเดือนของฉัน" (some 5) q])
          | .ok results0 =>
              routeRespond ⟨.ok q, ex, na⟩ "เงินเดือนของฉัน" (some 5)
                (personalMatch "เงินเดือนของฉัน")
                (routeMainQuery "เงินเดือนของฉัน" (some 5) q) results0) :
        Response × List DatabaseQuery).2.head? = _
    rcases hex : ex (routeMainQuery "เงินเดือนของฉัน" (some 5) q) with e | r0
    · rfl
    · obtain ⟨resp, rest, hr⟩ :=
        routeRespond_trace ⟨.ok q, ex, na⟩ "เงินเดือนของฉัน" (some 5)
          (personalMatch "เงินเดือนของฉัน")
          (routeMainQuery "เงินเดือนของฉัน" (some 5) q) r0
      dsimp only
      rw [hr]
      rfl

theorem personalSalaryGuardScenario_witness :
    handlePost ctxSalary "เงินเดือนของฉัน" none = (⟨200, .answerField clarifyMsg⟩, []) ∧
    ((handlePost ctxSalary "เงินเดือนของฉัน" (some 5)).2.head? =
        some (routeMainQuery "เงินเดือนของฉัน" (some 5)
          { type := "SELECT", table := "payroll" }) ∧
      lookupCond (((routeMainQuery "เงินเดือนของฉัน" (some 5)
            { type := "SELECT", table := "payroll" }).conditions).getD [])
          "emp_id" = some (.withOp "=" (.num 5))) :=
  ⟨personalSalaryGuardScenario.1 ctxSalary { type := "SELECT", table := "payroll" } rfl,
   personalSalaryGuardScenario.2 ctxSalary { type := "SELECT", table := "payroll" }
     rfl (by decide)⟩

/-- C10: whenever the question is classified personal and a (truthy)
`employeeId` is supplied — and the question does not also trip the
other-employee rejection, in which case nothing executes — the handler
sets `conditions.emp_id` of the translated query to
`{operator '=', value Number(employeeId)}` for every query on one of
the five known tables, overwriting whatever `emp_id` condition the
translator produced (the statement quantifies over every translator
output `q`, including ones whose `emp_id` holds a name-resolution
subquery value); the executed main query is exactly that rewritten
query. -/
theorem personalScopingInjection (ctx : RouteCtx) (message : String) (n : Int)
    (q : DatabaseQuery)
    (hmsg : message ≠ "")
    (hn : n ≠ 0)
    (hpm : personalMatch message = true)
    (hom : otherEmployeeMatch message = false)
    (h : ctx.translate = .ok q)
    (htab : empIdTables.contains q.table = true) :
    (handlePost ctx message (some n)).2.head? =
        some (routeMainQuery message (some n) q) ∧
    lookupCond (((routeMainQuery message (some n) q).conditions).getD []) "emp_id" =
      some (.withOp "=" (.num n)) := by
  obtain ⟨tr, ex, na⟩ := ctx
  simp only [RouteCtx.translate] at h
  subst h
  have het : empIdTruthy (some n) = true := by simp [empIdTruthy, hn]
  have hlook : lookupCond (((routeMainQuery message (some n) q).conditions).getD [])
      "emp_id" = some (.withOp "=" (.num n)) := by
    unfold routeMainQuery
    rw [hpm, het]
    simp only [Bool.and_self, if_true, Option.getD_some]
    have ht2 : empIdTables.contains (applyNameOrRewrite q).table = true := by
      rw [applyNameOrRewrite_table]; exact htab
    simpa using injectEmpId_lookup (applyNameOrRewrite q) n ht2
  refine ⟨?_, hlook⟩
  unfold handlePost
  rw [if_neg hmsg]
  simp only [RouteCtx.exec, RouteCtx.narrate, hom, Bool.and_false, Bool.false_eq_true,
    if_false, hpm, het, Bool.not_true, Bool.and_true, Bool.true_and, if_true]
  rcases hex : ex (routeMainQuery message (some n) q) with e | r0
  · rfl
  · obtain ⟨resp, rest, hr⟩ :=
      routeRespond_trace ⟨.ok q, ex, na⟩ message (some n) true
        (routeMainQuery message (some n) q) r0
    dsimp only
    rw [hr]
    rfl

theorem personalScopingInjection_witness :
    (handlePost ctxSubqueryEmpId "เงินเดือนของฉัน" (some 7)).2.head? =
        some (routeMainQuery "เงินเดือนของฉัน" (some 7)
          { type := "SELECT"
            table := "attendance"
            conditions := some
              [("emp_id", .withOp "="
                  (.str "(SELECT emp_id FROM employees WHERE first_name LIKE \x27%Malee%\x27)"))] }) ∧
    lookupCond (((routeMainQuery "เงินเดือนของฉัน" (some 7)
          { type := "SELECT"
            table := "attendance"
            conditions := some
              [("emp_id", .withOp "="
                  (.str "(SELECT emp_id FROM employees WHERE first_name LIKE \x27%Malee%\x27)"))] }).conditions).getD [])
        "emp_id" = some (.withOp "=" (.num 7)) :=
  personalScopingInjection ctxSubqueryEmpId "เงินเดือนของฉัน" 7 _
    (by decide) (by decide) personalMatch_salary otherMatch_salary rfl (by decide)


/-- C2 (amended): within one database-chat request no internal
operation is retried; a failure in translation, in the main query
execution, or in narration aborts the request with a 500 error
response, and the query trace contains exactly the calls issued up to
the failing stage.  However — contrary to the original claim — a
failure of the employee-name enrichment lookup does *not* abort the
request: it is caught, and the handler returns a 200 success reply
built from the unenriched rows. -/
theorem failureAbortPolicy :
    (∀ (ctx : RouteCtx) (message : String) (employeeId : Option Int) (e : String),
        message ≠ "" →
        (empIdTruthy employeeId && otherEmployeeMatch message) = false →
        ctx.translate = .error e →
        handlePost ctx message employeeId = (⟨500, .errField (mapDbChatError e)⟩, [])) ∧
    (∀ (ctx : RouteCtx) (message : String) (employeeId : Option Int)
        (q : DatabaseQuery) (e : String),
        message ≠ "" →
        (empIdTruthy employeeId && otherEmployeeMatch message) = false →
        (personalMatch message && !empIdTruthy employeeId) = false →
        ctx.translate = .ok q →
        ctx.exec (routeMainQuery message employeeId q) = .error e →
        handlePost ctx message employeeId =
          (⟨500, .errField (mapDbChatError e)⟩, [routeMainQuery message employeeId q])) ∧
    (∀ (ctx : RouteCtx) (message : String) (employeeId : Option Int)
        (q : DatabaseQuery) (r0 : Option (List Row)) (e : String),
        message ≠ "" →
        (empIdTruthy employeeId && otherEmployeeMatch message) = false →
        (personalMatch message && !empIdTruthy employeeId) = false →
        ctx.translate = .ok q →
        ctx.exec (routeMainQuery message employeeId q) = .ok r0 →
        ctx.narrate message (((routeEnrich ctx r0).1).getD [])
            (routeMainQuery message employeeId q) (empIdTruthy employeeId) = .error e →
        handlePost ctx message employeeId =
          (⟨500, .errField (mapDbChatError e)⟩,
           routeMainQuery message employeeId q :: (routeEnrich ctx r0).2)) ∧
    (∀ (ctx : RouteCtx) (message : String) (employeeId : Option Int)
        (q : DatabaseQuery) (rows : List Row) (e2 reply : String),
        message ≠ "" →
        (empIdTruthy employeeId && otherEmployeeMatch message) = false →
        (personalMatch message && !empIdTruthy employeeId) = false →
        ctx.translate = .ok q →
        ctx.exec (routeMainQuery message employeeId q) = .ok (some rows) →
        0 < rows.length →
        hasField (rows.headD []) "emp_id" = true →
        0 < (collectEmpIds rows).length →
        ctx.exec (employeeNameQuery (collectEmpIds rows)) = .error e2 →
        ctx.narrate message rows (routeMainQuery message employeeId q)
            (empIdTruthy employeeId) = .ok reply →
        handlePost ctx message employeeId =
          (⟨200, .success reply (routeMainQuery message employeeId q) rows.length
              (personalMatch message && empIdTruthy employeeId)⟩,
           [routeMainQuery message employeeId q, employeeNameQuery (collectEmpIds rows)])) := by
  refine ⟨?_, ?_, ?_, ?_⟩
  · intro ctx message employeeId e hmsg hrej htr
    obtain ⟨tr, ex, na⟩ := ctx
    simp only [RouteCtx.translate] at htr
    subst htr
    unfold handlePost
    rw [if_neg hmsg]
    simp only [hrej, Bool.false_eq_true, if_false]
  · intro ctx message employeeId q e hmsg hrej hclar htr hex
    obtain ⟨tr, ex, na⟩ := ctx
    simp only [RouteCtx.translate] at htr
    subst htr
    simp only [RouteCtx.exec] at hex
    unfold handlePost
    rw [if_neg hmsg]
    simp only [hrej, Bool.false_eq_true, if_false, hclar, hex]
  · intro ctx message employeeId q r0 e hmsg hrej hclar htr hex hnar
    obtain ⟨tr, ex, na⟩ := ctx
    simp only [RouteCtx.translate] at htr
    subst htr
    simp only [RouteCtx.exec] at hex
    unfold handlePost
    rw [if_neg hmsg]
    simp only [hrej, Bool.false_eq_true, if_false, hclar, hex]
    unfold routeRespond
    rcases hE : routeEnrich ⟨Except.ok q, ex, na⟩ r0 with ⟨r1, exq⟩
    rw [hE] at hnar
    dsimp only
    dsimp only at hnar
    rw [hnar]
  · intro ctx message employeeId q rows e2 reply hmsg hrej hclar htr hex hrows hfld hids hfail hnar
    obtain ⟨tr, ex, na⟩ := ctx
    simp only [RouteCtx.translate] at htr
    subst htr
    simp only [RouteCtx.exec] at hex hfail
    simp only [RouteCtx.narrate] at hnar
    unfold handlePost
    rw [if_neg hmsg]
    simp only [hrej, Bool.false_eq_true, if_false, hclar, hex]
    unfold routeRespond routeEnrich
    have hfield : (decide (rows.length > 0) && hasField (rows.headD []) "emp_id") = true := by
      rw [hfld, decide_eq_true hrows]
      rfl
    simp only [hfield, if_true, if_pos hids, hfail, Option.getD_some]
    rw [hnar]
    simp

theorem failureAbortPolicy_witness :
    handlePost ctxTranslateFail "สวัสดี" none =
      (⟨500, .errField (mapDbChatError "Could not understand the query")⟩, []) :=
  failureAbortPolicy.1 ctxTranslateFail "สวัสดี" none "Could not understand the query"
    (by decide) (by decide) rfl

/-- C2 counterexample: an internal operation fails — the employee-name
enrichment lookup errors — yet the handler still produces a success
(200) reply from the unenriched rows, so not every internal failure
aborts the request, and a partial-success reply is produced after an
internal failure. -/
theorem enrichmentFailureStillSucceeds :
    handlePost ctxEnrichFail "x" none =
      (⟨200, .success "done" { type := "SELECT", table := "attendance" } 1 false⟩,
       [{ type := "SELECT", table := "attendance" }, employeeNameQuery [JPrim.num 1]]) ∧
    ctxEnrichFail.exec (employeeNameQuery [JPrim.num 1]) = .error "boom" :=
  ⟨rfl, rfl⟩


/-- C4 (amended): every guarded rejection of the database-chat entry
point is returned with HTTP status 200 and has the shape
`{ reply: string, restricted: true }`; the clarification response is
also returned with status 200, but — contrary to the original claim —
its body is `{ answer: string }`, carrying no `reply` field. -/
theorem guardResponseShapes :
    (∀ (ctx : RouteCtx) (message : String) (employeeId : Option Int),
        message ≠ "" →
        (empIdTruthy employeeId && otherEmployeeMatch message) = true →
        handlePost ctx message employeeId = (⟨200, .replyRestricted restrictedMsg⟩, [])) ∧
    (∀ (ctx : RouteCtx) (message : String) (employeeId : Option Int) (q : DatabaseQuery),
        message ≠ "" →
        (empIdTruthy employeeId && otherEmployeeMatch message) = false →
        ctx.translate = .ok q →
        (personalMatch message && !empIdTruthy employeeId) = true →
        handlePost ctx message employeeId = (⟨200, .answerField clarifyMsg⟩, [])) ∧
    isGuardReplyShape (.replyRestricted restrictedMsg) = true ∧
    isGuardReplyShape (.answerField clarifyMsg) = false := by
  refine ⟨?_, ?_, rfl, rfl⟩
  · intro ctx message employeeId hmsg hrej
    unfold handlePost
    rw [if_neg hmsg]
    simp only [hrej, if_true]
  · intro ctx message employeeId q hmsg hrej htr hclar
    obtain ⟨tr, ex, na⟩ := ctx
    simp only [RouteCtx.translate] at htr
    subst htr
    unfold handlePost
    rw [if_neg hmsg]
    simp only [hrej, Bool.false_eq_true, if_false, hclar, if_true]

theorem guardResponseShapes_witness :
    handlePost ctxSalary "xของเพื่อนy" (some 5) =
      (⟨200, .replyRestricted restrictedMsg⟩, []) ∧
    handlePost ctxSalary "วันลาของฉันเหลือเท่าไหร่" none =
      (⟨200, .answerField clarifyMsg⟩, []) :=
  ⟨guardResponseShapes.1 ctxSalary "xของเพื่อนy" (some 5) (by decide) (by decide),
   guardResponseShapes.2.1 ctxSalary "วันลาของฉันเหลือเท่าไหร่" none
     { type := "SELECT", table := "payroll" } (by decide) (by decide) rfl (by decide)⟩

/-- C4 counterexample: a run reaching the clarification branch returns
status 200 with the body shape `{ answer: ... }`, which is not of the
claimed `{ reply: string, restricted?: true }` shape. -/
theorem clarifyShapeCounterexample :
    handlePost ctxSalary "เงินเดือนของฉันคือเท่าไหร่" none =
      (⟨200, .answerField clarifyMsg⟩, []) ∧
    isGuardReplyShape (.answerField clarifyMsg) = false :=
  ⟨rfl, rfl⟩



theorem digitVal?_some {c : Char} {v : Nat} (h : digitVal? c = some v) :
    decDigit v = c ∧ v < 10 := by
  unfold digitVal? at h
  split at h
  next hr =>
    injection h with hv
    simp only [Bool.and_eq_true, decide_eq_true_eq] at hr
    have h0 : '0'.toNat = 48 := rfl
    have h9 : '9'.toNat = 57 := rfl
    have hc0 : 48 ≤ c.toNat := by
      have := hr.1
      rwa [Char.le_def] at this
    have hc9 : c.toNat ≤ 57 := by
      have := hr.2
      rwa [Char.le_def] at this
    have hv10 : v < 10 := by omega
    refine ⟨?_, hv10⟩
    unfold decDigit
    rw [if_pos hv10]
    have he : '0'.toNat + v = c.toNat := by omega
    rw [he]
    exact Char.ofNat_toNat c
  next => cases h

theorem isDigitCh_lowChar {c : Char} (h : isDigitCh c = true) : jsLowChar c = c := by
  unfold isDigitCh at h
  rcases hv : digitVal? c with _ | v
  · rw [hv] at h; cases h
  · obtain ⟨hdec, hlt⟩ := digitVal?_some hv
    subst hdec
    interval_cases v <;> decide

theorem isDigitCh_upChar {c : Char} (h : isDigitCh c = true) : jsUpChar c = c := by
  unfold isDigitCh at h
  rcases hv : digitVal? c with _ | v
  · rw [hv] at h; cases h
  · obtain ⟨hdec, hlt⟩ := digitVal?_some hv
    subst hdec
    interval_cases v <;> decide

theorem isDigitCh_notWs {c : Char} (h : isDigitCh c = true) : jsIsWs c = false := by
  unfold isDigitCh at h
  rcases hv : digitVal? c with _ | v
  · rw [hv] at h; cases h
  · obtain ⟨hdec, hlt⟩ := digitVal?_some hv
    subst hdec
    interval_cases v <;> decide

theorem decDigit_isDigit {v : Nat} (h : v < 10) : isDigitCh (decDigit v) = true := by
  interval_cases v <;> decide

theorem natDecCharsGo_congr : ∀ f1 f2 n : Nat, n ≤ f1 → n ≤ f2 →
    natDecCharsGo f1 n = natDecCharsGo f2 n := by
  intro f1
  induction f1 using Nat.strong_induction_on with
  | _ f1 ih =>
    intro f2 n h1 h2
    cases f1 with
    | zero =>
      have hn : n = 0 := by omega
      subst hn
      cases f2 with
      | zero => rfl
      | succ f2 =>
        simp only [natDecCharsGo]
        rw [if_pos (by omega)]
    | succ f1 =>
      cases f2 with
      | zero =>
        have hn : n = 0 := by omega
        subst hn
        simp only [natDecCharsGo]
        rw [if_pos (by omega)]
      | succ f2 =>
        simp only [natDecCharsGo]
        by_cases h : n < 10
        · rw [if_pos h, if_pos h]
        · rw [if_neg h, if_neg h]
          rw [ih f1 (by omega) f2 (n / 10) (by omega) (by omega)]

theorem natDecChars_eq (n : Nat) :
    natDecChars n =
      if n < 10 then [decDigit n]
      else natDecChars (n / 10) ++ [decDigit (n % 10)] := by
  show natDecCharsGo n n = _
  cases n with
  | zero =>
    rw [if_pos (by omega)]
    rfl
  | succ k =>
    simp only [natDecCharsGo]
    by_cases h : k + 1 < 10
    · rw [if_pos h, if_pos h]
    · rw [if_neg h, if_neg h]
      rw [natDecCharsGo_congr k ((k + 1) / 10) ((k + 1) / 10) (by omega) (by omega)]
      rfl

theorem natDecChars_digits : ∀ (n : Nat), ∀ c ∈ natDecChars n, isDigitCh c = true := by
  intro n
  induction n using Nat.strong_induction_on with
  | _ n ih =>
    intro c hc
    rw [natDecChars_eq] at hc
    split at hc
    · simp only [List.mem_singleton] at hc
      subst hc
      exact decDigit_isDigit (by omega)
    · rw [List.mem_append] at hc
      rcases hc with hc | hc
      · exact ih (n / 10) (Nat.div_lt_self (by omega) (by omega)) c hc
      · simp only [List.mem_singleton] at hc
        subst hc
        exact decDigit_isDigit (Nat.mod_lt _ (by omega))

theorem natDecChars_len1 {n : Nat} (h : n < 10) : natDecChars n = [decDigit n] := by
  rw [natDecChars_eq, if_pos h]

theorem natDecChars_len2 {n : Nat} (h1 : 10 ≤ n) (h2 : n < 100) :
    natDecChars n = [decDigit (n / 10), decDigit (n % 10)] := by
  rw [natDecChars_eq, if_neg (by omega)]
  rw [natDecChars_len1 (by omega)]
  rfl

theorem natDecChars_len3 {n : Nat} (h1 : 100 ≤ n) (h2 : n < 1000) :
    natDecChars n = [decDigit (n / 100), decDigit (n / 10 % 10), decDigit (n % 10)] := by
  rw [natDecChars_eq, if_neg (by omega)]
  rw [natDecChars_len2 (by omega) (by omega)]
  have h3 : n / 10 / 10 = n / 100 := by omega
  rw [h3]
  rfl

theorem natDecChars_len4 {n : Nat} (h1 : 1000 ≤ n) (h2 : n < 10000) :
    natDecChars n =
      [decDigit (n / 1000), decDigit (n / 100 % 10), decDigit (n / 10 % 10), decDigit (n % 10)] := by
  rw [natDecChars_eq, if_neg (by omega)]
  rw [natDecChars_len3 (by omega) (by omega)]
  have h3 : n / 10 / 100 = n / 1000 := by omega
  have h4 : n / 10 / 10 % 10 = n / 100 % 10 := by omega
  rw [h3, h4]
  rfl

theorem digitsToNat_append_single (l : List Char) (c : Char) :
    digitsToNat (l ++ [c]) = digitsToNat l * 10 + (digitVal? c).getD 0 := by
  unfold digitsToNat
  rw [List.foldl_append]
  rfl

theorem digitVal?_decDigit {v : Nat} (h : v < 10) : digitVal? (decDigit v) = some v := by
  interval_cases v <;> decide

theorem digitsToNat_natDecChars : ∀ (n : Nat), digitsToNat (natDecChars n) = n := by
  intro n
  induction n using Nat.strong_induction_on with
  | _ n ih =>
    by_cases h : n < 10
    · rw [natDecChars_len1 h]
      unfold digitsToNat
      simp [digitVal?_decDigit h]
    · rw [natDecChars_eq, if_neg h]
      rw [digitsToNat_append_single]
      rw [ih (n / 10) (Nat.div_lt_self (by omega) (by omega))]
      rw [digitVal?_decDigit (Nat.mod_lt _ (by omega))]
      simp
      omega

theorem intToDec_ofNonneg {n : Int} (h0 : 0 ≤ n) :
    intToDec n = String.mk (natDecChars n.toNat) := by
  unfold intToDec
  rw [if_neg (by omega)]

theorem pad2_toList {n : Int} (h0 : 0 ≤ n) (h9 : n ≤ 99) :
    (pad2 n).toList = [decDigit (n.toNat / 10), decDigit (n.toNat % 10)] := by
  unfold pad2
  rw [intToDec_ofNonneg h0]
  by_cases h : n.toNat < 10
  · rw [natDecChars_len1 h]
    have hl : ({ data := [decDigit n.toNat] } : String).length < 2 := by
      show (1 : Nat) < 2
      omega
    rw [if_pos hl]
    have e1 : n.toNat / 10 = 0 := by omega
    have e2 : n.toNat % 10 = n.toNat := by omega
    rw [e1, e2]
    rfl
  · rw [natDecChars_len2 (by omega) (by omega)]
    have hl2 : ¬ ({ data := [decDigit (n.toNat / 10), decDigit (n.toNat % 10)] } : String).length < 2 := by
      show ¬ (2 : Nat) < 2
      omega
    rw [if_neg hl2]
    rfl

theorem canonChars_struct {cs : List Char} (h : canonChars cs = true) :
    ∃ y1 y2 y3 y4 m1 m2 d1 d2,
      cs = [y1, y2, y3, y4, '-', m1, m2, '-', d1, d2] ∧
      isDigitCh y1 = true ∧ isDigitCh y2 = true ∧ isDigitCh y3 = true ∧ isDigitCh y4 = true ∧
      isDigitCh m1 = true ∧ isDigitCh m2 = true ∧ isDigitCh d1 = true ∧ isDigitCh d2 = true := by
  unfold canonChars at h
  split at h
  next y1 y2 y3 y4 h1 m1 m2 h2 d1 d2 =>
    simp only [Bool.and_eq_true, decide_eq_true_eq] at h
    obtain ⟨⟨⟨⟨⟨⟨⟨⟨⟨hy1, hy2⟩, hy3⟩, hy4⟩, hh1⟩, hm1⟩, hm2⟩, hh2⟩, hd1⟩, hd2⟩ := h
    subst hh1
    subst hh2
    exact ⟨y1, y2, y3, y4, m1, m2, d1, d2, rfl, hy1, hy2, hy3, hy4, hm1, hm2, hd1, hd2⟩
  next => cases h

theorem digitsToNat_two (a b : Char) :
    digitsToNat [a, b] = (digitVal? a).getD 0 * 10 + (digitVal? b).getD 0 := by
  unfold digitsToNat
  simp [List.foldl]

theorem pad2_roundTrip {a b : Char} (ha : isDigitCh a = true) (hb : isDigitCh b = true) :
    (pad2 (digitsToNat [a, b] : Int)).toList = [a, b] := by
  unfold isDigitCh at ha hb
  rcases hva : digitVal? a with _ | va
  · rw [hva] at ha; cases ha
  rcases hvb : digitVal? b with _ | vb
  · rw [hvb] at hb; cases hb
  obtain ⟨hda, hla⟩ := digitVal?_some hva
  obtain ⟨hdb, hlb⟩ := digitVal?_some hvb
  have hval : digitsToNat [a, b] = va * 10 + vb := by
    rw [digitsToNat_two, hva, hvb]
    rfl
  rw [hval]
  rw [pad2_toList (by omega) (by omega)]
  have e1 : ((va * 10 + vb : Nat) : Int).toNat = va * 10 + vb := by omega
  rw [e1]
  have e2 : (va * 10 + vb) / 10 = va := by omega
  have e3 : (va * 10 + vb) % 10 = vb := by omega
  rw [e2, e3, hda, hdb]


theorem intToDec_year_toList {y : Int} (h1 : 1000 ≤ y) (h2 : y ≤ 9999) :
    (intToDec y).toList =
      [decDigit (y.toNat / 1000), decDigit (y.toNat / 100 % 10),
       decDigit (y.toNat / 10 % 10), decDigit (y.toNat % 10)] := by
  rw [intToDec_ofNonneg (by omega)]
  show natDecChars y.toNat = _
  rw [natDecChars_len4 (by omega) (by omega)]

theorem digitsToNat_intToDec_year {y : Int} (h1 : 1000 ≤ y) (h2 : y ≤ 9999) :
    digitsToNat (intToDec y).toList = y.toNat := by
  rw [intToDec_ofNonneg (by omega)]
  show digitsToNat (natDecChars y.toNat) = y.toNat
  exact digitsToNat_natDecChars y.toNat

theorem fmtDate_toList (dt : CalDate) :
    (fmtDate dt).toList =
      (intToDec dt.year).toList ++ '-' :: (pad2 dt.month).toList ++ '-' :: (pad2 dt.day).toList := by
  unfold fmtDate
  show (intToDec dt.year ++ "-" ++ pad2 dt.month ++ "-" ++ pad2 dt.day).data = _
  rw [String.data_append, String.data_append, String.data_append, String.data_append]
  simp

theorem daysInMonth_le (y m : Int) : daysInMonth y m ≤ 31 := by
  unfold daysInMonth
  split
  · split <;> omega
  · split <;> omega

theorem digitsToNat_pad2 {n : Int} (h0 : 0 ≤ n) (h9 : n ≤ 99) :
    digitsToNat (pad2 n).toList = n.toNat := by
  rw [pad2_toList h0 h9, digitsToNat_two,
      digitVal?_decDigit (by omega), digitVal?_decDigit (by omega)]
  simp only [Option.getD_some]
  omega

theorem dropWhile_id_of (p : Char → Bool) (l : List Char)
    (h : ∀ c ∈ l, p c = false) : l.dropWhile p = l := by
  cases l with
  | nil => rfl
  | cons c t => simp [List.dropWhile_cons, h c (by simp)]

theorem digitDash_notWs {c : Char} (h : isDigitCh c = true ∨ c = '-') :
    jsIsWs c = false := by
  rcases h with h | h
  · exact isDigitCh_notWs h
  · subst h; decide

theorem digitDash_low {c : Char} (h : isDigitCh c = true ∨ c = '-') :
    jsLowChar c = c := by
  rcases h with h | h
  · exact isDigitCh_lowChar h
  · subst h; decide

theorem digitDash_up {c : Char} (h : isDigitCh c = true ∨ c = '-') :
    jsUpChar c = c := by
  rcases h with h | h
  · exact isDigitCh_upChar h
  · subst h; decide

theorem digitDash_ne {c c' : Char} (h : isDigitCh c = true ∨ c = '-')
    (h' : isDigitCh c' = false ∧ c' ≠ '-') : c' ≠ c := by
  intro he
  subst he
  rcases h with h | h
  · rw [h'.1] at h; cases h
  · exact h'.2 h

theorem stripSelect_digitDash {cs : List Char}
    (hall : ∀ c ∈ cs, isDigitCh c = true ∨ c = '-') :
    stripSelectArtifacts cs = cs := by
  have hpre : eatLitCI "(SELECT".toList none cs = none := by
    cases cs with
    | nil => rfl
    | cons c t =>
      show eatLitCI ('(' :: "SELECT".toList) none (c :: t) = none
      unfold eatLitCI
      rw [if_neg]
      intro he
      have hc := hall c (by simp)
      have hcp : c = '(' := by
        have h1 : jsLowChar '(' = '(' := by decide
        rw [h1, digitDash_low hc] at he
        exact he.symm
      subst hcp
      rcases hc with hc | hc
      · exact absurd hc (by decide)
      · exact absurd hc (by decide)
  unfold stripSelectArtifacts
  rw [hpre]
  show stripTrailingParen cs = cs
  unfold stripTrailingParen
  cases hr : cs.reverse with
  | nil =>
    rw [if_neg (by simp)]
  | cons c t =>
    have hc : isDigitCh c = true ∨ c = '-' := by
      apply hall
      have hmem : c ∈ cs.reverse := by rw [hr]; simp
      simpa using hmem
    simp only [List.head?_cons]
    rw [if_neg]
    intro he
    have hce : c = ')' := by injection he
    subst hce
    rcases hc with hc | hc
    · exact absurd hc (by decide)
    · exact absurd hc (by decide)

theorem jsTrimChars_digitDash {cs : List Char}
    (hall : ∀ c ∈ cs, isDigitCh c = true ∨ c = '-') :
    jsTrimChars cs = cs := by
  unfold jsTrimChars
  rw [dropWhile_id_of _ _ (fun c hc => digitDash_notWs (hall c hc))]
  rw [dropWhile_id_of _ _ (fun c hc => digitDash_notWs (hall c (by simpa using hc)))]
  simp

theorem map_upChar_id {cs : List Char}
    (hall : ∀ c ∈ cs, isDigitCh c = true ∨ c = '-') :
    cs.map jsUpChar = cs := by
  induction cs with
  | nil => rfl
  | cons c t ih =>
    simp only [List.map_cons]
    rw [digitDash_up (hall c (by simp)), ih (fun c hc => hall c (by simp [hc]))]

theorem normalizeDateInput_digitDash (s : String)
    (hall : ∀ c ∈ s.toList, isDigitCh c = true ∨ c = '-') :
    normalizeDateInput s = s.toList := by
  unfold normalizeDateInput
  rw [stripSelect_digitDash hall,
      jsTrimChars_digitDash hall,
      map_upChar_id hall]

theorem map_lowChar_id {cs : List Char}
    (hall : ∀ c ∈ cs, isDigitCh c = true ∨ c = '-') :
    cs.map jsLowChar = cs := by
  induction cs with
  | nil => rfl
  | cons c t ih =>
    simp only [List.map_cons]
    rw [digitDash_low (hall c (by simp)), ih (fun c hc => hall c (by simp [hc]))]

theorem digitDash_head_notin {cs : List Char}
    (hall : ∀ c ∈ cs, isDigitCh c = true ∨ c = '-')
    {a : Char} {l : List Char} (ha : isDigitCh a = false ∧ a ≠ '-')
    (he : cs = a :: l) : False := by
  have hm := hall a (by rw [he]; simp)
  rcases hm with h | h
  · rw [ha.1] at h; cases h
  · exact ha.2 h

theorem tryNowModifierAt_digitDash {c : Char} {rest : List Char}
    (h : isDigitCh c = true ∨ c = '-') :
    tryNowModifierAt (c :: rest) = none := by
  have hd : eatLit "date(\x27now\x27,".toList (c :: rest) = none := by
    show eatLit ('d' :: "ate(\x27now\x27,".toList) (c :: rest) = none
    unfold eatLit
    rw [if_neg (digitDash_ne h (by decide))]
  unfold tryNowModifierAt
  rw [hd]

theorem searchNowModifier_digitDash : ∀ cs : List Char,
    (∀ c ∈ cs, isDigitCh c = true ∨ c = '-') → searchNowModifier cs = none
  | [], _ => rfl
  | c :: rest, hall => by
      unfold searchNowModifier
      rw [tryNowModifierAt_digitDash (hall c (by simp))]
      exact searchNowModifier_digitDash rest (fun x hx => hall x (by simp [hx]))

theorem matchCurrentDateIntervalChars_digitDash {cs : List Char}
    (hall : ∀ c ∈ cs, isDigitCh c = true ∨ c = '-') :
    matchCurrentDateIntervalChars cs = none := by
  have hd : eatLit "CURRENT_DATE".toList cs = none := by
    cases cs with
    | nil => rfl
    | cons c t =>
      show eatLit ('C' :: "URRENT_DATE".toList) (c :: t) = none
      unfold eatLit
      rw [if_neg (digitDash_ne (hall c (by simp)) (by decide))]
  unfold matchCurrentDateIntervalChars
  rw [hd]

theorem relativeLower_digitDash (today : CalDate) {cs : List Char}
    (hall : ∀ c ∈ cs, isDigitCh c = true ∨ c = '-') :
    relativeLower today cs = fmtDate today := by
  unfold relativeLower
  rw [if_neg, searchNowModifier_digitDash cs hall]
  rintro (h | h)
  · exact digitDash_head_notin hall (by decide)
      (show cs = 'd' :: "ate(\x27now\x27)".toList from h)
  · exact digitDash_head_notin hall (by decide)
      (show cs = 'd' :: "ate(\x27now\x27, \x27localtime\x27)".toList from h)

theorem relativeBranch_digitDash (today : CalDate) {cs : List Char}
    (hall : ∀ c ∈ cs, isDigitCh c = true ∨ c = '-') :
    relativeBranch today cs = fmtDate today := by
  unfold relativeBranch
  by_cases hcd : cs = "CURRENT_DATE".toList
  · rw [if_pos hcd]
  · rw [if_neg hcd, matchCurrentDateIntervalChars_digitDash hall,
        map_lowChar_id hall]
    exact relativeLower_digitDash today hall

theorem parseSQLiteDate_eq (today : CalDate) (s : String) :
    parseSQLiteDate today s =
      match canonBranch today (normalizeDateInput s) with
      | some out => out
      | none => relativeBranch today (normalizeDateInput s) := rfl

theorem canonChars_digitDash {cs : List Char} (h : canonChars cs = true) :
    ∀ c ∈ cs, isDigitCh c = true ∨ c = '-' := by
  obtain ⟨y1, y2, y3, y4, m1, m2, d1, d2, he, hy1, hy2, hy3, hy4, hm1, hm2, hd1, hd2⟩ :=
    canonChars_struct h
  subst he
  intro c hc
  simp only [List.mem_cons, List.not_mem_nil, or_false] at hc
  rcases hc with rfl | rfl | rfl | rfl | rfl | rfl | rfl | rfl | rfl | rfl
  · exact Or.inl hy1
  · exact Or.inl hy2
  · exact Or.inl hy3
  · exact Or.inl hy4
  · exact Or.inr rfl
  · exact Or.inl hm1
  · exact Or.inl hm2
  · exact Or.inr rfl
  · exact Or.inl hd1
  · exact Or.inl hd2

theorem canonRewriteOrIso_hit {today : CalDate} {cs : List Char}
    (hhit : yearRewriteHit today cs = true) :
    canonRewriteOrIso today cs =
      some (intToDec today.year ++ "-" ++ String.mk (canonParts cs).2.1 ++ "-"
            ++ String.mk (canonParts cs).2.2) := by
  unfold canonRewriteOrIso
  rw [if_pos hhit]

theorem canonRewriteOrIso_miss {today : CalDate} {cs : List Char}
    (hhit : yearRewriteHit today cs = false) :
    canonRewriteOrIso today cs =
      match isoParseValid cs with
      | some dt => some (fmtDate dt)
      | none => none := by
  unfold canonRewriteOrIso
  rw [if_neg (by simp [hhit])]

theorem isoParseValid_eq {cs ys ms ds : List Char}
    (hcanon : canonChars cs = true)
    (hparts : canonParts cs = (ys, ms, ds)) :
    isoParseValid cs =
      if isValidDate (digitsToNat ys) (digitsToNat ms) (digitsToNat ds) then
        some ⟨(digitsToNat ys : Int), (digitsToNat ms : Int), (digitsToNat ds : Int)⟩
      else none := by
  unfold isoParseValid
  rw [if_pos hcanon, hparts]

theorem parseSQLiteDate_canon (today : CalDate) (s : String) (ys ms ds : List Char)
    (hcanon : canonChars (normalizeDateInput s) = true)
    (hparts : canonParts (normalizeDateInput s) = (ys, ms, ds)) :
    parseSQLiteDate today s =
      if yearRewriteHit today (normalizeDateInput s) then
        intToDec today.year ++ "-" ++ String.mk ms ++ "-" ++ String.mk ds
      else if isValidDate (digitsToNat ys) (digitsToNat ms) (digitsToNat ds) then
        fmtDate ⟨(digitsToNat ys : Int), (digitsToNat ms : Int), (digitsToNat ds : Int)⟩
      else fmtDate today := by
  rw [parseSQLiteDate_eq]
  unfold canonBranch
  rw [if_pos hcanon]
  by_cases hhit : yearRewriteHit today (normalizeDateInput s) = true
  · rw [canonRewriteOrIso_hit hhit, hparts, if_pos hhit]
  · have hhitf : yearRewriteHit today (normalizeDateInput s) = false := by
      rw [Bool.not_eq_true] at hhit
      exact hhit
    rw [canonRewriteOrIso_miss hhitf, isoParseValid_eq hcanon hparts, if_neg hhit]
    by_cases hv : isValidDate (digitsToNat ys) (digitsToNat ms) (digitsToNat ds) = true
    · rw [if_pos hv, if_pos hv]
    · rw [if_neg hv, if_neg hv]
      exact relativeBranch_digitDash today (canonChars_digitDash hcanon)

theorem parseSQLiteDate_fmtDate (today dt : CalDate)
    (hy1 : 1000 ≤ dt.year) (hy2 : dt.year ≤ 9999)
    (hv : isValidDate dt.year dt.month dt.day = true)
    (hnr : dt.year = today.year ∨
           dateLe (jsMkDate today.year (dt.month - 1) dt.day)
             (jsSetMonth today (today.month + 6)) = false) :
    parseSQLiteDate today (fmtDate dt) = fmtDate dt := by
  obtain ⟨y, m, d⟩ := dt
  dsimp only at hy1 hy2 hv hnr ⊢
  have hb : 1 ≤ m ∧ m ≤ 12 ∧ 1 ≤ d ∧ d ≤ daysInMonth y m := by
    unfold isValidDate at hv
    simp only [Bool.and_eq_true, decide_eq_true_eq] at hv
    exact ⟨hv.1.1.1, hv.1.1.2, hv.1.2, hv.2⟩
  have hd31 : d ≤ 31 := le_trans hb.2.2.2 (daysInMonth_le y m)
  have hm1 := hb.1
  have hm12 := hb.2.1
  have hd1 := hb.2.2.1
  have hfl : (fmtDate ⟨y, m, d⟩).toList =
      [decDigit (y.toNat / 1000), decDigit (y.toNat / 100 % 10),
       decDigit (y.toNat / 10 % 10), decDigit (y.toNat % 10), '-',
       decDigit (m.toNat / 10), decDigit (m.toNat % 10), '-',
       decDigit (d.toNat / 10), decDigit (d.toNat % 10)] := by
    rw [fmtDate_toList]
    dsimp only
    rw [intToDec_year_toList hy1 hy2,
        pad2_toList (by omega) (by omega), pad2_toList (by omega) (by omega)]
    rfl
  have hall : ∀ c ∈ (fmtDate ⟨y, m, d⟩).toList, isDigitCh c = true ∨ c = '-' := by
    rw [hfl]
    intro c hc
    simp only [List.mem_cons, List.not_mem_nil, or_false] at hc
    rcases hc with rfl | rfl | rfl | rfl | rfl | rfl | rfl | rfl | rfl | rfl
    · exact Or.inl (decDigit_isDigit (by omega))
    · exact Or.inl (decDigit_isDigit (by omega))
    · exact Or.inl (decDigit_isDigit (by omega))
    · exact Or.inl (decDigit_isDigit (by omega))
    · exact Or.inr rfl
    · exact Or.inl (decDigit_isDigit (by omega))
    · exact Or.inl (decDigit_isDigit (by omega))
    · exact Or.inr rfl
    · exact Or.inl (decDigit_isDigit (by omega))
    · exact Or.inl (decDigit_isDigit (by omega))
  have hnorm : normalizeDateInput (fmtDate ⟨y, m, d⟩) = (fmtDate ⟨y, m, d⟩).toList :=
    normalizeDateInput_digitDash _ hall
  have hcanon : canonChars (normalizeDateInput (fmtDate ⟨y, m, d⟩)) = true := by
    rw [hnorm, hfl]
    simp only [canonChars]
    rw [decDigit_isDigit (show y.toNat / 1000 < 10 by omega),
        decDigit_isDigit (show y.toNat / 100 % 10 < 10 by omega),
        decDigit_isDigit (show y.toNat / 10 % 10 < 10 by omega),
        decDigit_isDigit (show y.toNat % 10 < 10 by omega),
        decDigit_isDigit (show m.toNat / 10 < 10 by omega),
        decDigit_isDigit (show m.toNat % 10 < 10 by omega),
        decDigit_isDigit (show d.toNat / 10 < 10 by omega),
        decDigit_isDigit (show d.toNat % 10 < 10 by omega)]
    decide
  have hparts : canonParts (normalizeDateInput (fmtDate ⟨y, m, d⟩)) =
      ([decDigit (y.toNat / 1000), decDigit (y.toNat / 100 % 10),
        decDigit (y.toNat / 10 % 10), decDigit (y.toNat % 10)],
       [decDigit (m.toNat / 10), decDigit (m.toNat % 10)],
       [decDigit (d.toNat / 10), decDigit (d.toNat % 10)]) := by
    rw [hnorm, hfl]
    simp only [canonParts]
  have hdy : (digitsToNat [decDigit (y.toNat / 1000), decDigit (y.toNat / 100 % 10),
      decDigit (y.toNat / 10 % 10), decDigit (y.toNat % 10)] : Int) = y := by
    rw [← intToDec_year_toList hy1 hy2, digitsToNat_intToDec_year hy1 hy2]
    omega
  have hdm : (digitsToNat [decDigit (m.toNat / 10), decDigit (m.toNat % 10)] : Int) = m := by
    rw [← pad2_toList (show (0:Int) ≤ m by omega) (show m ≤ 99 by omega),
        digitsToNat_pad2 (by omega) (by omega)]
    omega
  have hdd : (digitsToNat [decDigit (d.toNat / 10), decDigit (d.toNat % 10)] : Int) = d := by
    rw [← pad2_toList (show (0:Int) ≤ d by omega) (show d ≤ 99 by omega),
        digitsToNat_pad2 (by omega) (by omega)]
    omega
  have hhit : yearRewriteHit today (normalizeDateInput (fmtDate ⟨y, m, d⟩)) = false := by
    unfold yearRewriteHit
    rw [hparts]
    dsimp only
    rw [hdy, hdm, hdd]
    rcases hnr with h | h
    · rw [h]
      simp
    · rw [h]
      simp
  rw [parseSQLiteDate_canon today (fmtDate ⟨y, m, d⟩) _ _ _ hcanon hparts, hhit]
  rw [if_neg (by simp)]
  rw [hdy, hdm, hdd]
  rw [if_pos hv]

/-- C5: on input already matching `YYYY-MM-DD`, the normalizer rewrites
the year to the current year exactly when the year differs from the
current year and the rolled-over `new Date(currentYear, month-1, day)`
is no later than `setMonth(currentMonth+6)` applied to today — a
seven-0-based-month upper bound with no lower bound and no validity
check on month/day.  Otherwise it reformats the parsed date when it is
a real calendar date, and falls back to today when it is not. -/
theorem dateCanonicalYearRewrite (today : CalDate) (s : String) (ys ms ds : List Char)
    (hcanon : canonChars (normalizeDateInput s) = true)
    (hparts : canonParts (normalizeDateInput s) = (ys, ms, ds)) :
    parseSQLiteDate today s =
      if (digitsToNat ys : Int) ≠ today.year ∧
         dateLe (jsMkDate today.year ((digitsToNat ms : Int) - 1) (digitsToNat ds))
           (jsSetMonth today (today.month + 6)) = true then
        intToDec today.year ++ "-" ++ String.mk ms ++ "-" ++ String.mk ds
      else if isValidDate (digitsToNat ys) (digitsToNat ms) (digitsToNat ds) then
        fmtDate ⟨(digitsToNat ys : Int), (digitsToNat ms : Int), (digitsToNat ds : Int)⟩
      else fmtDate today := by
  rw [parseSQLiteDate_canon today s ys ms ds hcanon hparts]
  have hcond : yearRewriteHit today (normalizeDateInput s) = true ↔
      ((digitsToNat ys : Int) ≠ today.year ∧
       dateLe (jsMkDate today.year ((digitsToNat ms : Int) - 1) (digitsToNat ds))
         (jsSetMonth today (today.month + 6)) = true) := by
    unfold yearRewriteHit
    rw [hparts]
    dsimp only
    rw [Bool.and_eq_true, bne_iff_ne]
  by_cases hp : (digitsToNat ys : Int) ≠ today.year ∧
      dateLe (jsMkDate today.year ((digitsToNat ms : Int) - 1) (digitsToNat ds))
        (jsSetMonth today (today.month + 6)) = true
  · rw [if_pos (hcond.mpr hp), if_pos hp]
  · rw [if_neg (fun hh => hp (hcond.mp hh)), if_neg hp]

/-- Witness for C5: a stale-year date inside the window is rewritten. -/
theorem dateCanonicalYearRewrite_witness :
    parseSQLiteDate day0 "2020-11-05" = "2026-11-05" := by
  have h := dateCanonicalYearRewrite day0 "2020-11-05" "2020".toList "11".toList "05".toList
    (by decide) (by decide)
  rw [h]
  decide

/-- Counterexample to the original C5: `2020-02-30` has no valid
month+day in the current year, yet the year is rewritten (the rolled
over tentative date lands inside the window), producing the
non-calendar output `2026-02-30`. -/
theorem dateYearRewriteCounterexample :
    parseSQLiteDate day0 "2020-02-30" = "2026-02-30" ∧
    isValidDate 2026 2 30 = false :=
  ⟨by decide, by decide⟩

/-- C8: on a wholly unparseable input (no canonical match, none of
the relative forms) `parseSQLiteDate` falls back to formatting
today\x27s date; the embedding is total by construction, matching the
source\x27s never-throwing normalizer. -/
theorem dateFallbackTotal (today : CalDate) (s : String)
    (h1 : canonChars (normalizeDateInput s) = false)
    (h2 : normalizeDateInput s ≠ "CURRENT_DATE".toList)
    (h3 : matchCurrentDateIntervalChars (normalizeDateInput s) = none)
    (h4 : (normalizeDateInput s).map jsLowChar ≠ "date(\x27now\x27)".toList)
    (h5 : (normalizeDateInput s).map jsLowChar ≠ "date(\x27now\x27, \x27localtime\x27)".toList)
    (h6 : searchNowModifier ((normalizeDateInput s).map jsLowChar) = none) :
    parseSQLiteDate today s = fmtDate today := by
  rw [parseSQLiteDate_eq]
  unfold canonBranch
  rw [h1, if_neg (by simp)]
  show relativeBranch today (normalizeDateInput s) = fmtDate today
  unfold relativeBranch
  rw [if_neg h2, h3]
  show relativeLower today ((normalizeDateInput s).map jsLowChar) = fmtDate today
  unfold relativeLower
  rw [if_neg (not_or.mpr ⟨h4, h5⟩), h6]

/-- Witness for C8 on the unparseable input `hello`. -/
theorem dateFallbackTotal_witness :
    parseSQLiteDate day0 "hello" = fmtDate day0 :=
  dateFallbackTotal day0 "hello" (by decide) (by decide) (by decide) (by decide)
    (by decide) (by decide)

/-- Counterexample to the original C8 wording: the returned string is
not always a calendar date — `2020-13-05` is passed through the year
rewrite and yields `2026-13-05`, which is no real date. -/
theorem dateNonCalendarCounterexample :
    parseSQLiteDate day0 "2020-13-05" = "2026-13-05" ∧
    isValidDate 2026 13 5 = false :=
  ⟨by decide, by decide⟩

/-- C9: normalization of an already-canonical `YYYY-MM-DD` input is
idempotent provided the month and day are valid in the current year
(and in their own year when no rewrite fires), with a four-digit year
and a valid four-digit current date. -/
theorem dateNormalizeIdempotentOnValid (today : CalDate) (s : String) (ys ms ds : List Char)
    (hty1 : 1000 ≤ today.year) (hty2 : today.year ≤ 9999)
    (htv : isValidCalDate today = true)
    (hcanon : canonChars (normalizeDateInput s) = true)
    (hparts : canonParts (normalizeDateInput s) = (ys, ms, ds))
    (hy1 : 1000 ≤ (digitsToNat ys : Int)) (hy2 : (digitsToNat ys : Int) ≤ 9999)
    (hvc : isValidDate today.year (digitsToNat ms) (digitsToNat ds) = true) :
    parseSQLiteDate today (parseSQLiteDate today s) = parseSQLiteDate today s := by
  have hchar := parseSQLiteDate_canon today s ys ms ds hcanon hparts
  obtain ⟨y1, y2, y3, y4, m1, m2, d1, d2, he, hq1, hq2, hq3, hq4, hm1, hm2, hd1, hd2⟩ :=
    canonChars_struct hcanon
  have hpe : canonParts (normalizeDateInput s) = ([y1,y2,y3,y4],[m1,m2],[d1,d2]) := by
    rw [he]
    simp only [canonParts]
  rw [hparts] at hpe
  simp only [Prod.mk.injEq] at hpe
  obtain ⟨hys, hms, hds⟩ := hpe
  subst hys
  subst hms
  subst hds
  by_cases hhit : yearRewriteHit today (normalizeDateInput s) = true
  · rw [hchar, if_pos hhit]
    have hp1 : pad2 ((digitsToNat [m1, m2] : Nat) : Int) = String.mk [m1, m2] :=
      String.ext (show (pad2 (digitsToNat [m1, m2] : Int)).data = (String.mk [m1, m2]).data
        from pad2_roundTrip hm1 hm2)
    have hp2 : pad2 ((digitsToNat [d1, d2] : Nat) : Int) = String.mk [d1, d2] :=
      String.ext (show (pad2 (digitsToNat [d1, d2] : Int)).data = (String.mk [d1, d2]).data
        from pad2_roundTrip hd1 hd2)
    have hfd : intToDec today.year ++ "-" ++ String.mk [m1, m2] ++ "-" ++ String.mk [d1, d2]
        = fmtDate ⟨today.year, (digitsToNat [m1, m2] : Int), (digitsToNat [d1, d2] : Int)⟩ := by
      unfold fmtDate
      dsimp only
      rw [hp1, hp2]
    rw [hfd]
    exact parseSQLiteDate_fmtDate today
      ⟨today.year, (digitsToNat [m1, m2] : Int), (digitsToNat [d1, d2] : Int)⟩
      hty1 hty2 hvc (Or.inl rfl)
  · have hhitf : yearRewriteHit today (normalizeDateInput s) = false := by
      rwa [Bool.not_eq_true] at hhit
    by_cases hval : isValidDate (digitsToNat [y1,y2,y3,y4]) (digitsToNat [m1,m2])
        (digitsToNat [d1,d2]) = true
    · rw [hchar, if_neg hhit, if_pos hval]
      refine parseSQLiteDate_fmtDate today
        ⟨(digitsToNat [y1,y2,y3,y4] : Int), (digitsToNat [m1,m2] : Int),
         (digitsToNat [d1,d2] : Int)⟩ hy1 hy2 hval ?_
      by_cases hye : (digitsToNat [y1,y2,y3,y4] : Int) = today.year
      · exact Or.inl hye
      · right
        unfold yearRewriteHit at hhitf
        rw [hparts] at hhitf
        dsimp only at hhitf
        rcases Bool.and_eq_false_iff.mp hhitf with ha | hb
        · exact absurd (bne_eq_false_iff_eq.mp ha) hye
        · exact hb
    · rw [hchar, if_neg hhit, if_neg hval]
      exact parseSQLiteDate_fmtDate today today hty1 hty2 htv (Or.inl rfl)

/-- Witness for C9 on a rewritten canonical input. -/
theorem dateNormalizeIdempotentOnValid_witness :
    parseSQLiteDate day0 (parseSQLiteDate day0 "2020-11-05") =
      parseSQLiteDate day0 "2020-11-05" :=
  dateNormalizeIdempotentOnValid day0 "2020-11-05" "2020".toList "11".toList "05".toList
    (by decide) (by decide) (by decide) (by decide) (by decide) (by decide) (by decide)
    (by decide)

/-- Counterexample to the original unconditional C9: `2024-02-29` is
rewritten to `2026-02-29` (invalid in 2026), and the second
normalization pass falls back to today — not a fixed point. -/
theorem dateIdempotenceCounterexample :
    parseSQLiteDate day0 "2024-02-29" = "2026-02-29" ∧
    parseSQLiteDate day0 (parseSQLiteDate day0 "2024-02-29") = "2026-10-11" :=
  ⟨by decide, by decide⟩

theorem prepassConds_between (B : Backend) (k s : String) :
    prepassConds B [(k, CondEntry.withOp "BETWEEN" (.str s))] =
      (.ok [(k, .withOp "BETWEEN" (.str s))], []) := rfl

theorem condToFilterOps_between (today : CalDate) (k s a b : String)
    (hsplit : splitBetweenParts s = [a, b]) :
    condToFilterOps today k (.withOp "BETWEEN" (.str s)) =
      .ok [.gte k (.str (parseSQLiteDate today a)), .lte k (.str (parseSQLiteDate today b))] := by
  unfold condToFilterOps
  dsimp only
  rw [hsplit, if_neg (by decide), if_neg (by decide), if_neg (by decide), if_pos (by decide)]

theorem condToOrAtoms_between (today : CalDate) (k s a b : String)
    (hsplit : splitBetweenParts s = [a, b]) :
    condToOrAtoms today k (.withOp "BETWEEN" (.str s)) =
      .ok [.gte k (.str (parseSQLiteDate today a)), .lte k (.str (parseSQLiteDate today b))] := by
  unfold condToOrAtoms
  dsimp only
  rw [hsplit, if_neg (by decide), if_neg (by decide), if_neg (by decide), if_pos (by decide)]

theorem buildFilterOpsAND_between (today : CalDate) (k s a b : String)
    (hsplit : splitBetweenParts s = [a, b]) :
    buildFilterOpsAND today [(k, .withOp "BETWEEN" (.str s))] =
      .ok [.gte k (.str (parseSQLiteDate today a)), .lte k (.str (parseSQLiteDate today b))] := by
  unfold buildFilterOpsAND
  rw [condToFilterOps_between today k s a b hsplit]
  rfl

theorem buildOrAtoms_between (today : CalDate) (k s a b : String)
    (hsplit : splitBetweenParts s = [a, b]) :
    buildOrAtoms today [(k, .withOp "BETWEEN" (.str s))] =
      .ok [.gte k (.str (parseSQLiteDate today a)), .lte k (.str (parseSQLiteDate today b))] := by
  unfold buildOrAtoms
  rw [condToOrAtoms_between today k s a b hsplit]
  rfl

theorem selectPath_and (today : CalDate) (B : Backend) (query : DatabaseQuery)
    (conds : List (String × CondEntry)) (F : List FilterOp)
    (hlogic : (query.conditionLogic == some "OR") = false)
    (hf : buildFilterOpsAND today conds = .ok F) :
    selectPath today B query conds =
      (B.onGeneric
        { table := query.table
          select := match query.columns with
                    | some (c :: cs) => String.intercalate ", " (c :: cs)
                    | _ => "*"
          filters := F
          order := (query.orderBy.getD []).map (fun ob => (ob.column, ob.direction == "asc"))
          limit := if limitTruthy query.limit then query.limit else none },
       [.generic
        { table := query.table
          select := match query.columns with
                    | some (c :: cs) => String.intercalate ", " (c :: cs)
                    | _ => "*"
          filters := F
          order := (query.orderBy.getD []).map (fun ob => (ob.column, ob.direction == "asc"))
          limit := if limitTruthy query.limit then query.limit else none }]) := by
  unfold selectPath
  rw [if_neg (show ¬((query.conditionLogic == some "OR") = true) from by
        rw [hlogic]; exact Bool.false_ne_true), hf]
  dsimp only
  cases hbg : B.onGeneric
      { table := query.table
        select := match query.columns with
                  | some (c :: cs) => String.intercalate ", " (c :: cs)
                  | _ => "*"
        filters := F
        order := (query.orderBy.getD []).map (fun ob => (ob.column, ob.direction == "asc"))
        limit := if limitTruthy query.limit then query.limit else none } with
  | error e => rfl
  | ok d => rfl

theorem selectPath_or (today : CalDate) (B : Backend) (query : DatabaseQuery)
    (conds : List (String × CondEntry)) (atoms : List OrAtom)
    (hlogic : (query.conditionLogic == some "OR") = true)
    (hf : buildOrAtoms today conds = .ok atoms)
    (hne : atoms.length > 0) :
    selectPath today B query conds =
      (B.onGeneric
        { table := query.table
          select := match query.columns with
                    | some (c :: cs) => String.intercalate ", " (c :: cs)
                    | _ => "*"
          filters := [.orFilter atoms]
          order := (query.orderBy.getD []).map (fun ob => (ob.column, ob.direction == "asc"))
          limit := if limitTruthy query.limit then query.limit else none },
       [.generic
        { table := query.table
          select := match query.columns with
                    | some (c :: cs) => String.intercalate ", " (c :: cs)
                    | _ => "*"
          filters := [.orFilter atoms]
          order := (query.orderBy.getD []).map (fun ob => (ob.column, ob.direction == "asc"))
          limit := if limitTruthy query.limit then query.limit else none }]) := by
  unfold selectPath
  rw [if_pos hlogic, hf]
  dsimp only
  rw [if_pos hne]
  cases hbg : B.onGeneric
      { table := query.table
        select := match query.columns with
                  | some (c :: cs) => String.intercalate ", " (c :: cs)
                  | _ => "*"
        filters := [.orFilter atoms]
        order := (query.orderBy.getD []).map (fun ob => (ob.column, ob.direction == "asc"))
        limit := if limitTruthy query.limit then query.limit else none } with
  | error e => rfl
  | ok d => rfl

theorem executeQuery_selectPath (today : CalDate) (B : Backend) (query : DatabaseQuery)
    (conds : List (String × CondEntry))
    (htype : ¬ query.type = "AGGREGATE")
    (hpre : prepassConds B (query.conditions.getD []) = (.ok conds, [])) :
    executeQuery today B query = selectPath today B query conds := by
  unfold executeQuery
  rw [hpre]
  dsimp only
  rw [if_neg htype]
  cases hsp : selectPath today B query conds with
  | mk res tr =>
    dsimp only
    rw [List.nil_append]

/-- C1: a BETWEEN condition whose value splits as `start AND end` is
compiled to the two normalized endpoint bounds.  Under the default AND
combination the executed generic query carries both bounds as chained
filters and a row passes iff its column lies in the closed interval;
under `conditionLogic == OR` the two bounds become two separate
disjuncts of the single `.or(...)` filter, so a row satisfying either
bound alone passes — the interval is not a single conjunctive
constraint there. -/
theorem betweenIntervalFilter (today : CalDate) (B : Backend) (query : DatabaseQuery)
    (k s a b : String) (row : Row)
    (htype : query.type ≠ "AGGREGATE")
    (hconds : query.conditions = some [(k, .withOp "BETWEEN" (.str s))])
    (hsplit : splitBetweenParts s = [a, b]) :
    (query.conditionLogic ≠ some "OR" →
      ∃ g : GenericQuery,
        executeQuery today B query = (B.onGeneric g, [.generic g]) ∧
        g.filters = [.gte k (.str (parseSQLiteDate today a)),
                     .lte k (.str (parseSQLiteDate today b))] ∧
        (rowPassesFilters g.filters row = true ↔
          (jvalLe (.str (parseSQLiteDate today a)) (getField row k) = true ∧
           jvalLe (getField row k) (.str (parseSQLiteDate today b)) = true))) ∧
    (query.conditionLogic = some "OR" →
      ∃ g : GenericQuery,
        executeQuery today B query = (B.onGeneric g, [.generic g]) ∧
        g.filters = [.orFilter [.gte k (.str (parseSQLiteDate today a)),
                                .lte k (.str (parseSQLiteDate today b))]] ∧
        (rowPassesFilters g.filters row = true ↔
          (jvalLe (.str (parseSQLiteDate today a)) (getField row k) = true ∨
           jvalLe (getField row k) (.str (parseSQLiteDate today b)) = true))) := by
  have hpre : prepassConds B (query.conditions.getD []) =
      (.ok [(k, .withOp "BETWEEN" (.str s))], []) := by
    rw [hconds]
    exact prepassConds_between B k s
  constructor
  · intro hlogic
    have hlb : (query.conditionLogic == some "OR") = false := beq_eq_false_iff_ne.mpr hlogic
    refine ⟨{ table := query.table
              select := match query.columns with
                        | some (c :: cs) => String.intercalate ", " (c :: cs)
                        | _ => "*"
              filters := [.gte k (.str (parseSQLiteDate today a)),
                          .lte k (.str (parseSQLiteDate today b))]
              order := (query.orderBy.getD []).map (fun ob => (ob.column, ob.direction == "asc"))
              limit := if limitTruthy query.limit then query.limit else none }, ?_, rfl, ?_⟩
    · rw [executeQuery_selectPath today B query _ htype hpre,
          selectPath_and today B query _ _ hlb (buildFilterOpsAND_between today k s a b hsplit)]
    · simp [rowPassesFilters, filterOpHolds]
  · intro hlogic
    have hlb : (query.conditionLogic == some "OR") = true := by
      rw [hlogic]
      rfl
    refine ⟨{ table := query.table
              select := match query.columns with
                        | some (c :: cs) => String.intercalate ", " (c :: cs)
                        | _ => "*"
              filters := [.orFilter [.gte k (.str (parseSQLiteDate today a)),
                                     .lte k (.str (parseSQLiteDate today b))]]
              order := (query.orderBy.getD []).map (fun ob => (ob.column, ob.direction == "asc"))
              limit := if limitTruthy query.limit then query.limit else none }, ?_, rfl, ?_⟩
    · rw [executeQuery_selectPath today B query _ htype hpre,
          selectPath_or today B query _ _ hlb (buildOrAtoms_between today k s a b hsplit)
            (by simp)]
    · simp [rowPassesFilters, filterOpHolds, atomHolds]

/-- Witness for C1 at a concrete query and row. -/
theorem betweenIntervalFilter_witness :
    ∃ g : GenericQuery,
      executeQuery day0 (tableBackend []) betweenAndQuery =
        ((tableBackend []).onGeneric g, [.generic g]) ∧
      g.filters = [.gte "date" (.str "2026-01-01"), .lte "date" (.str "2026-01-31")] ∧
      (rowPassesFilters g.filters rowJune = true ↔
        (jvalLe (.str "2026-01-01") (getField rowJune "date") = true ∧
         jvalLe (getField rowJune "date") (.str "2026-01-31") = true)) := by
  have h := (betweenIntervalFilter day0 (tableBackend []) betweenAndQuery "date"
      "2026-01-01 AND 2026-01-31" "2026-01-01" "2026-01-31" rowJune
      (by decide) rfl (by decide)).1 (by decide)
  have e1 : parseSQLiteDate day0 "2026-01-01" = "2026-01-01" := by decide
  have e2 : parseSQLiteDate day0 "2026-01-31" = "2026-01-31" := by decide
  rw [e1, e2] at h
  exact h

/-- Counterexample to the original C1 OR clause: with range
`2026-01-01 AND 2026-01-31` under OR logic, the out-of-interval row
dated `2026-06-15` survives the filter (it satisfies the `gte` disjunct
alone). -/
theorem betweenOrCounterexample :
    (executeQuery day0 (tableBackend [[("date", JVal.str "2026-06-15")]]) betweenOrQuery).1 =
      .ok (some [[("date", JVal.str "2026-06-15")]]) ∧
    jvalLe (JVal.str "2026-06-15") (JVal.str "2026-01-31") = false :=
  ⟨rfl, by decide⟩

end HRChat
